import Mathlib

/-!
# Energy simulation plugin

A shallow embedding of `energysimulation/integrationpluginenergysimulation.cpp`
(`executeAction`, `updateSimulation` and `calculateSunriseSunset`) together with
theorems about it.

Modelling conventions.

* Every thing class the source touches has a record of its own; the host's
  `myThings()` is the collection of the five lists of `SimState`.  What the host
  offers for every thing whatever its class (identity, the interfaces of its
  class, `setting("phase")`, `stateValue("currentPower")`) is the base record
  `Thing`.
* A `double` is a real number: arithmetic is exact, there is no rounding, no
  infinity and no NaN (a division by zero yields `0`, as everywhere in Mathlib).
  `qCos` is the real cosine.
* `int` and `qlonglong` are unbounded integers; `/` and `%` on them are the
  truncating `Int.tdiv` and `Int.tmod` of C++.  No intermediate value of the
  source comes near the machine limits (times are milliseconds within a day).
* A `QDateTime` is its number of milliseconds since the epoch; the null
  `QDateTime` and the null `QUuid` are `none`.
* One run of `updateSimulation` sees one value of `QDateTime::currentDateTime()`
  (`TickEnv.now`), one pair `calculateSunriseSunset(48, 10, now)` and three draws
  of `qrand()`; they are the inputs `TickEnv` of a tick.

Organisation of the proofs.  The auxiliary facts about one function are stated
together: a theorem named `..._lemmas` is the conjunction of these facts, each
preceded by its name, and a proof that uses some of them takes the conjunction
apart with `obtain`.  The theorems of the claims come last, in the order of the
claims.
-/

namespace EnergySimulation

/-! The derived injectivity and `sizeOf` lemmas of the records below are not used
by any proof; they are not generated. -/

set_option genInjectivity false
set_option genSizeOfSpec false
set_option genSizeOf false

/-! ## Data model -/

/-- The identity of a thing (a `ThingId`, a non-null `QUuid`). -/
abbrev ThingId := Nat

/-- What the host answers for a thing of any class: its id, the interfaces of
its thing class, the value of `setting("phase").toString()` and the value of
`stateValue("currentPower").toDouble()`. -/
structure Thing where
  id : ThingId
  interfaces : List String
  phase : String
  currentPower : ℝ

/-- A thing of class `solarInverter`: setting `maxCapacity` (and `phase`), state
`currentPower`. -/
structure SolarInverter extends Thing where
  maxCapacity : ℝ

/-- A thing of class `wallbox`: states `power`, `pluggedIn`,
`maxChargingCurrent`, setting `phase`, and the dynamic property
`connectedCarThingId`. -/
structure Wallbox extends Thing where
  power : Bool
  pluggedIn : Bool
  maxChargingCurrent : ℝ
  connectedCarThingId : Option ThingId

/-- A thing of class `car`: states `pluggedIn`, `batteryLevel` (read through
`toInt()` everywhere), `batteryCritical`, `minChargingCurrent`, `capacity`, and
the dynamic property `lastChargeUpdateTime`. -/
structure Car extends Thing where
  pluggedIn : Bool
  batteryLevel : Int
  batteryCritical : Bool
  minChargingCurrent : ℝ
  capacity : ℝ
  lastChargeUpdateTime : Option Int

/-- A thing of class `stove`: setting `maxPowerConsumption`, states `power`,
`currentPower`, `totalEnergyConsumed`, and the dynamic property
`simulationCycle` (`0` while it was never written). -/
structure Stove extends Thing where
  maxPowerConsumption : ℝ
  power : Bool
  totalEnergyConsumed : ℝ
  simulationCycle : Int

/-- A thing of class `smartMeter`: states `currentPowerPhaseA/B/C`,
`currentPower`, `totalEnergyConsumed`, `totalEnergyProduced`. -/
structure SmartMeter extends Thing where
  currentPowerPhaseA : ℝ
  currentPowerPhaseB : ℝ
  currentPowerPhaseC : ℝ
  totalEnergyConsumed : ℝ
  totalEnergyProduced : ℝ

/-- The things of the plugin, `myThings()`, by thing class; each list is in the
order of `myThings().filterByThingClassId(..)`. -/
structure SimState where
  inverters : List SolarInverter
  wallboxes : List Wallbox
  cars : List Car
  stoves : List Stove
  smartMeters : List SmartMeter

/-- The inputs of one run of `updateSimulation`: the pair returned by
`calculateSunriseSunset(48, 10, now)`, the current time, and the three values
`qrand()` returns for the jitter of phases A, B and C. -/
structure TickEnv where
  sunrise : Int
  sunset : Int
  now : Int
  randA : Nat
  randB : Nat
  randC : Nat

/-! ## Helpers standing for Qt and host functions -/

/-- The function `qDegreesToRadians`. -/
noncomputable def qDegreesToRadians (degrees : ℝ) : ℝ := degrees * (Real.pi / 180)

/-- The conversion of a `double` held by a `QVariant` to `int` (`toInt()`):
rounding to the nearest integer, halves upwards. -/
noncomputable def toInt (x : ℝ) : Int := ⌊x + 1 / 2⌋

/-- The call `myThings().findById(id)` for a `connectedCarThingId`: the first
car with that id, nothing for the null id. -/
def findById (cars : List Car) (id : Option ThingId) : Option Car :=
  match id with
  | none => none
  | some i => cars.find? (fun c => c.id == i)

/-- Writing through a `Thing *`: the first element that satisfies `p` is
replaced by its image under `f`, the others are kept. -/
def modifyFirst {α : Type} (p : α → Bool) (f : α → α) : List α → List α
  | [] => []
  | x :: xs => if p x then f x :: xs else x :: modifyFirst p f xs

/-! ## `updateSimulation`: solar inverters (source lines 130-149) -/

/-- The integer expression `(currentMSecOfLight * 180 / msecsOfLight) - 90` of
line 138, in `qlonglong` arithmetic. -/
def daylightDegrees (sunrise sunset now : Int) : Int :=
  let msecsOfLight := sunset - sunrise
  let currentMSecOfLight := now - sunrise
  Int.tdiv (currentMSecOfLight * 180) msecsOfLight - 90

/-- The body of the two inverter loops (lines 135-149) for one inverter. -/
noncomputable def updateInverter (env : TickEnv) (inverter : SolarInverter) : SolarInverter :=
  if env.sunrise < env.now ∧ env.now < env.sunset then
    let degrees : ℝ := ((daylightDegrees env.sunrise env.sunset env.now : Int) : ℝ)
    let currentProduction : ℝ := Real.cos (qDegreesToRadians degrees) * inverter.maxCapacity
    { inverter with currentPower := -currentProduction }
  else
    { inverter with currentPower := 0 }

/-! ## `updateSimulation`: wallboxes charging cars (lines 151-183) -/

/-- The value `chargedPercentage` of lines 163-169 for a wallbox, its car and
the car's recorded `lastChargeUpdateTime`. -/
noncomputable def chargedPercentage (now : Int) (evCharger : Wallbox) (car : Car)
    (lastChargeUpdateTime : Int) : ℝ :=
  let maxChargingCurrent : ℝ := evCharger.maxChargingCurrent
  let chargingPower : ℝ := 230 * maxChargingCurrent
  let chargingTimeHours : ℝ := 1.0 * ((now - lastChargeUpdateTime : Int) : ℝ) / 1000 / 60 / 60
  let chargedWattHours : ℝ := chargingPower * chargingTimeHours
  let carCapacity : ℝ := car.capacity
  chargedWattHours / 1000 * 100 / carCapacity

/-- Lines 157-181 for the car a wallbox points to: the car after the body and
whether the body left the loop over the wallboxes through `break`. -/
noncomputable def chargeCar (now : Int) (evCharger : Wallbox) (car : Car) : Car × Bool :=
  if car.batteryLevel < 100 then
    match car.lastChargeUpdateTime with
    | none => ({ car with lastChargeUpdateTime := some now }, true)
    | some lastChargeUpdateTime =>
      let chargedPercentage : ℝ := chargedPercentage now evCharger car lastChargeUpdateTime
      if chargedPercentage ≥ 1 then
        let level : Int := toInt ((car.batteryLevel : ℝ) + chargedPercentage)
        ({ car with
            lastChargeUpdateTime := some now
            batteryLevel := level
            batteryCritical := decide (level < 10) }, false)
      else (car, false)
  else (car, false)

/-- The body of the loop over the wallboxes (lines 153-182) for one wallbox:
the cars after it and whether it ended in `break`. -/
noncomputable def evChargerStep (now : Int) (evCharger : Wallbox) (cars : List Car) :
    List Car × Bool :=
  if evCharger.pluggedIn = true ∧ evCharger.power = true then
    match findById cars evCharger.connectedCarThingId with
    | some car =>
      (modifyFirst (fun c => c.id == car.id) (fun c => (chargeCar now evCharger c).1) cars,
        (chargeCar now evCharger car).2)
    | none => (cars, false)
  else (cars, false)

/-- The loop over the wallboxes (lines 152-183); a `break` ends it. -/
noncomputable def updateEvChargers (now : Int) : List Wallbox → List Car → List Car
  | [], cars => cars
  | evCharger :: rest, cars =>
    if (evChargerStep now evCharger cars).2 then (evChargerStep now evCharger cars).1
    else updateEvChargers now rest (evChargerStep now evCharger cars).1

/-! ## `updateSimulation`: unplugged cars (lines 185-191) and stoves (193-208) -/

/-- The body of the loop over the cars (lines 187-190). -/
def drainCar (car : Car) : Car :=
  if car.pluggedIn = false ∧ car.batteryLevel > 0 then
    let level : Int := car.batteryLevel - 1
    { car with batteryLevel := level, batteryCritical := decide (level < 10) }
  else car

/-- The body of the loop over the stoves (lines 195-207). -/
noncomputable def updateStove (stove : Stove) : Stove :=
  if stove.power = true then
    let cycle : Int := Int.tmod stove.simulationCycle 12
    let maxPower : ℝ := stove.maxPowerConsumption
    let currentPower : ℝ := if cycle < 4 then maxPower else 0
    let totalEnergyConsumed : ℝ :=
      if cycle < 4 then stove.totalEnergyConsumed + (maxPower / 1000) / 60 / 60 * 5
      else stove.totalEnergyConsumed
    { stove with
        currentPower := currentPower
        totalEnergyConsumed := totalEnergyConsumed
        simulationCycle := cycle + 1 }
  else stove

/-! ## `updateSimulation`: the energy meter (lines 210-304) -/

/-- A `QHash<QString, double>` as an association list with distinct keys. -/
abbrev PhaseHash := List (String × ℝ)

/-- The initial hash of lines 215-219 and 233-237. -/
def phaseHashInit : PhaseHash := [("A", 0), ("B", 0), ("C", 0)]

/-- Reading `hash[key]`; a key that is not there reads as `0`. -/
def hashValue (hash : PhaseHash) (key : String) : ℝ :=
  match hash.find? (fun e => e.1 == key) with
  | some e => e.2
  | none => 0

/-- The statement `hash[key] += v`; `operator[]` first inserts `0` under a key
that is not there. -/
def hashAdd (hash : PhaseHash) (key : String) (v : ℝ) : PhaseHash :=
  if hash.any (fun e => e.1 == key) then
    hash.map (fun e => if e.1 == key then (e.1, e.2 + v) else e)
  else hash ++ [(key, 0 + v)]

/-- The loops of lines 274-281: the sum of all values of a hash. -/
def hashTotal (hash : PhaseHash) : ℝ := (hash.map Prod.snd).sum

/-- Lines 223-229 and 262-268: a third on each of A, B, C for phase "All",
everything on the key `phase` otherwise. -/
noncomputable def addToPhases (hash : PhaseHash) (phase : String) (v : ℝ) : PhaseHash :=
  if phase = "All" then
    hashAdd (hashAdd (hashAdd hash "A" (v / 3)) "B" (v / 3)) "C" (v / 3)
  else hashAdd hash phase v

/-- Lines 214-230: the production of the inverters by phase. -/
noncomputable def totalPhaseProduction (inverters : List SolarInverter) : PhaseHash :=
  inverters.foldl (fun hash inverter => addToPhases hash inverter.phase inverter.currentPower)
    phaseHashInit

/-- All things of the plugin as the host's `myThings()` yields them to the loop
of line 244. -/
def SimState.myThings (s : SimState) : List Thing :=
  s.inverters.map (fun t => t.toThing) ++ s.wallboxes.map (fun t => t.toThing) ++
    s.cars.map (fun t => t.toThing) ++ s.stoves.map (fun t => t.toThing) ++
    s.smartMeters.map (fun t => t.toThing)

/-- The test of line 246. -/
def isConsumer (t : Thing) : Bool :=
  t.interfaces.contains "smartmeterconsumer" && !t.interfaces.contains "energymeter"

/-- The body of the loop of lines 253-270 for one wallbox. -/
noncomputable def addEvCharger (cars : List Car) (hash : PhaseHash) (evCharger : Wallbox) :
    PhaseHash :=
  match findById cars evCharger.connectedCarThingId with
  | some connectedCar =>
    if evCharger.power = true ∧ evCharger.pluggedIn = true ∧ connectedCar.batteryLevel < 100 then
      let currentConsumption : ℝ := evCharger.maxChargingCurrent * 230
      addToPhases hash evCharger.phase currentConsumption
    else hash
  | none => hash

/-- Lines 232-270: the consumption by phase. -/
noncomputable def totalPhasesConsumption (env : TickEnv) (s : SimState) : PhaseHash :=
  let base : PhaseHash :=
    hashAdd (hashAdd (hashAdd phaseHashInit "A" (100 + ((env.randA % 10 : Nat) : ℝ)))
      "B" (100 + ((env.randB % 10 : Nat) : ℝ))) "C" (100 + ((env.randC % 10 : Nat) : ℝ))
  let withConsumers : PhaseHash :=
    s.myThings.foldl
      (fun hash consumer =>
        if isConsumer consumer then hashAdd hash consumer.phase consumer.currentPower else hash)
      base
  s.wallboxes.foldl (addEvCharger s.cars) withConsumers

/-- The body of the loop over the smart meters (lines 287-303). -/
noncomputable def updateSmartMeter (totalPhasesConsumption totalPhaseProduction : PhaseHash)
    (smartMeter : SmartMeter) : SmartMeter :=
  let grandTotal : ℝ := hashTotal totalPhasesConsumption + hashTotal totalPhaseProduction
  let published : SmartMeter :=
    { smartMeter with
        currentPowerPhaseA :=
          hashValue totalPhasesConsumption "A" + hashValue totalPhaseProduction "A"
        currentPowerPhaseB :=
          hashValue totalPhasesConsumption "B" + hashValue totalPhaseProduction "B"
        currentPowerPhaseC :=
          hashValue totalPhasesConsumption "C" + hashValue totalPhaseProduction "C"
        currentPower := grandTotal }
  let consumption : ℝ := grandTotal / 1000 / 60 / 60 * 5
  if grandTotal > 0 then
    { published with totalEnergyConsumed := smartMeter.totalEnergyConsumed + consumption }
  else
    { published with totalEnergyProduced := smartMeter.totalEnergyProduced - consumption }

/-! ## `updateSimulation` -/

/-- The function `updateSimulation` (lines 126-305): one tick. -/
noncomputable def updateSimulation (env : TickEnv) (s : SimState) : SimState :=
  let s1 : SimState := { s with inverters := s.inverters.map (updateInverter env) }
  let s2 : SimState := { s1 with cars := updateEvChargers env.now s1.wallboxes s1.cars }
  let s3 : SimState := { s2 with cars := s2.cars.map drainCar }
  let s4 : SimState := { s3 with stoves := s3.stoves.map updateStove }
  { s4 with
      smartMeters :=
        s4.smartMeters.map
          (updateSmartMeter (totalPhasesConsumption env s4) (totalPhaseProduction s4.inverters)) }

/-! ## `executeAction` (lines 74-124) -/

/-- The status an action finishes with. -/
inductive ThingError where
  | ThingErrorNoError
  | ThingErrorHardwareNotAvailable
  deriving DecidableEq, Repr

/-- An action as `executeAction` receives it: the thing it addresses (by id,
within the list of its class), the action type and the parameter value.
`other` is any action the function has no branch for. -/
inductive Action where
  | stovePower (thing : ThingId) (power : Bool)
  | wallboxPower (thing : ThingId) (power : Bool)
  | wallboxMaxChargingCurrent (thing : ThingId) (maxChargingCurrent : ℝ)
  | carPluggedIn (thing : ThingId) (pluggedIn : Bool)
  | carMinChargingCurrent (thing : ThingId) (minChargingCurrent : ℝ)
  | other

/-- The function `executeAction`: the state after the action and the status it
finishes with. -/
def executeAction (a : Action) (s : SimState) : SimState × ThingError :=
  match a with
  | Action.stovePower thing power =>
    ({ s with
        stoves := modifyFirst (fun t => t.id == thing) (fun t => { t with power := power }) s.stoves },
      ThingError.ThingErrorNoError)
  | Action.wallboxPower thing power =>
    ({ s with
        wallboxes :=
          modifyFirst (fun t => t.id == thing) (fun t => { t with power := power }) s.wallboxes },
      ThingError.ThingErrorNoError)
  | Action.wallboxMaxChargingCurrent thing maxChargingCurrent =>
    ({ s with
        wallboxes :=
          modifyFirst (fun t => t.id == thing)
            (fun t => { t with maxChargingCurrent := maxChargingCurrent }) s.wallboxes },
      ThingError.ThingErrorNoError)
  | Action.carPluggedIn thing true =>
    if s.wallboxes.any (fun w => w.connectedCarThingId.isNone) then
      ({ s with
          wallboxes :=
            modifyFirst (fun w => w.connectedCarThingId.isNone)
              (fun w => { w with connectedCarThingId := some thing, pluggedIn := true })
              s.wallboxes
          cars :=
            modifyFirst (fun t => t.id == thing) (fun t => { t with pluggedIn := true }) s.cars },
        ThingError.ThingErrorNoError)
    else (s, ThingError.ThingErrorHardwareNotAvailable)
  | Action.carPluggedIn thing false =>
    ({ s with
        cars :=
          modifyFirst (fun t => t.id == thing) (fun t => { t with pluggedIn := false }) s.cars
        wallboxes :=
          modifyFirst (fun w => w.connectedCarThingId == some thing)
            (fun w => { w with connectedCarThingId := none, pluggedIn := false }) s.wallboxes },
      ThingError.ThingErrorNoError)
  | Action.carMinChargingCurrent thing minChargingCurrent =>
    ({ s with
        cars :=
          modifyFirst (fun t => t.id == thing)
            (fun t => { t with minChargingCurrent := minChargingCurrent }) s.cars },
      ThingError.ThingErrorNoError)
  | Action.other => (s, ThingError.ThingErrorNoError)

/-! ## Runs -/

/-- What can happen to the plugin: the timer fires or the host passes an
action. -/
inductive Event where
  | tick (env : TickEnv)
  | action (a : Action)

/-- The state after one event. -/
noncomputable def step (s : SimState) : Event → SimState
  | Event.tick env => updateSimulation env s
  | Event.action a => (executeAction a s).1

/-- The state after a sequence of events, the first of the list first. -/
noncomputable def run (s : SimState) (events : List Event) : SimState :=
  events.foldl step s

/-- The state after a sequence of ticks. -/
noncomputable def runTicks (s : SimState) (envs : List TickEnv) : SimState :=
  envs.foldl (fun st env => updateSimulation env st) s

/-! ## Predicates used by the theorems -/

/-- The relation between the two car states `batteryCritical` and
`batteryLevel`. -/
def CriticalOk (c : Car) : Prop := c.batteryCritical = decide (c.batteryLevel < 10)

/-- A property of cars that the charging body and the drain body keep, and that
does not depend on `pluggedIn` and `minChargingCurrent`. -/
structure CarInvariant (P : Car → Prop) : Prop where
  charge : ∀ (now : Int) (w : Wallbox) (c : Car), P c → P (chargeCar now w c).1
  drain : ∀ c : Car, P c → P (drainCar c)
  plug : ∀ (c : Car) (b : Bool), P c → P { c with pluggedIn := b }
  minCurrent : ∀ (c : Car) (v : ℝ), P c → P { c with minChargingCurrent := v }

/-- A stove whose setting `maxPowerConsumption` is `m` and whose `currentPower`
is `0` or `m`. -/
def StoveOk (m : ℝ) (x : Stove) : Prop :=
  x.maxPowerConsumption = m ∧ (x.currentPower = 0 ∨ x.currentPower = m)

/-- The position in the 12-tick cycle a stove is at when its counter, `c` at
the start, has gone through `n` ticks. -/
def cyclePosition (c : Int) (n : Nat) : Int := (c + n) % 12

/-! ## Example things and states -/

/-- A car with the given id, plug state, battery level and timestamp; its
capacity is 50 kWh and its critical flag fits the level. -/
def exampleCar (id : ThingId) (pluggedIn : Bool) (batteryLevel : Int)
    (lastChargeUpdateTime : Option Int) : Car :=
  { id := id, interfaces := [], phase := "", currentPower := 0
    pluggedIn := pluggedIn, batteryLevel := batteryLevel
    batteryCritical := decide (batteryLevel < 10)
    minChargingCurrent := 6, capacity := 50
    lastChargeUpdateTime := lastChargeUpdateTime }

/-- A powered wallbox on phase A with a maximal charging current of 16 A. -/
def exampleWallbox (id : ThingId) (connectedCarThingId : Option ThingId) : Wallbox :=
  { id := id, interfaces := [], phase := "A", currentPower := 0
    power := true, pluggedIn := connectedCarThingId.isSome
    maxChargingCurrent := 16, connectedCarThingId := connectedCarThingId }

/-- A tick at time `now` on a day with sunrise at 06:00 and sunset at 18:00
(milliseconds of the day), without jitter. -/
def exampleEnv (now : Int) : TickEnv :=
  { sunrise := 21600000, sunset := 64800000, now := now, randA := 0, randB := 0, randC := 0 }

/-- A state with one unplugged car at 50 percent and one free wallbox. -/
def exampleUnplugged : SimState :=
  { inverters := [], wallboxes := [exampleWallbox 1 none]
    cars := [exampleCar 2 false 50 none], stoves := [], smartMeters := [] }

/-- A state with one wallbox (powered, plugged in, 16 A) charging one car
(50 kWh) that is at 99 percent and whose `lastChargeUpdateTime` is time 0. -/
def exampleNearlyFull : SimState :=
  { inverters := [], wallboxes := [exampleWallbox 1 (some 2)]
    cars := [exampleCar 2 true 99 (some 0)], stoves := [], smartMeters := [] }

/-- A state with one wallbox (powered, plugged in, 16 A) charging one car
(50 kWh) that is at 50 percent and whose `lastChargeUpdateTime` is time 0: one
percent takes a little more than 489 seconds. -/
def exampleCharging : SimState :=
  { inverters := [], wallboxes := [exampleWallbox 1 (some 2)]
    cars := [exampleCar 2 true 50 (some 0)], stoves := [], smartMeters := [] }

/-- A state with two wallboxes, both powered and plugged in: the first one is
connected to car 3, which has no `lastChargeUpdateTime` yet, the second one to
car 4, whose `lastChargeUpdateTime` is time 0.  Both cars are at 50 percent. -/
def exampleTwoWallboxes : SimState :=
  { inverters := []
    wallboxes := [exampleWallbox 1 (some 3), exampleWallbox 2 (some 4)]
    cars := [exampleCar 3 true 50 none, exampleCar 4 true 50 (some 0)]
    stoves := [], smartMeters := [] }

/-- A plugged-in car with id 2 and a small battery of 0.23 kWh. -/
def smallCar (batteryLevel : Int) (lastChargeUpdateTime : Option Int) : Car :=
  { id := 2, interfaces := [], phase := "", currentPower := 0
    pluggedIn := true, batteryLevel := batteryLevel
    batteryCritical := decide (batteryLevel < 10)
    minChargingCurrent := 6, capacity := 0.23
    lastChargeUpdateTime := lastChargeUpdateTime }

/-- A powered, plugged-in wallbox connected to car 2 with a maximal charging
current of 9 A: it delivers 1.25 percent of `smallCar` in 5 seconds. -/
def smallWallbox : Wallbox :=
  { id := 1, interfaces := [], phase := "A", currentPower := 0
    power := true, pluggedIn := true
    maxChargingCurrent := 9, connectedCarThingId := some 2 }

/-- The small car at 50 percent on the small wallbox, timestamp at time 0. -/
def exampleSmall : SimState :=
  { inverters := [], wallboxes := [smallWallbox]
    cars := [smallCar 50 (some 0)], stoves := [], smartMeters := [] }

/-- A stove of 2000 W with the given power state and cycle counter. -/
def exampleStove (power : Bool) (simulationCycle : Int) : Stove :=
  { id := 7, interfaces := ["smartmeterconsumer"], phase := "A", currentPower := 0
    maxPowerConsumption := 2000, power := power, totalEnergyConsumed := 0
    simulationCycle := simulationCycle }

/-- A state with one stove that is switched on, counter at 0. -/
def exampleKitchen : SimState :=
  { inverters := [], wallboxes := [], cars := [], stoves := [exampleStove true 0]
    smartMeters := [] }

/-- An inverter on all phases with a maximal capacity of 1000 W. -/
def exampleInverter : SolarInverter :=
  { id := 9, interfaces := [], phase := "All", currentPower := 0, maxCapacity := 1000 }

/-- A state with one inverter. -/
def exampleRoof : SimState :=
  { inverters := [exampleInverter], wallboxes := [], cars := [], stoves := [], smartMeters := [] }

/-- The state after the device updates of lines 126-208, which the energy meter
part of `updateSimulation` reads. -/
noncomputable def updateDevices (env : TickEnv) (s : SimState) : SimState :=
  { s with
      inverters := s.inverters.map (updateInverter env)
      cars := (updateEvChargers env.now s.wallboxes s.cars).map drainCar
      stoves := s.stoves.map updateStove }

/-- The three phases of the meter. -/
def IsPhase (p : String) : Prop := p = "A" ∨ p = "B" ∨ p = "C"

/-- A stove of 900 W on the given phase that is switched on, counter at 0; its
class has the interface `smartmeterconsumer`. -/
def exampleConsumer (phase : String) : Stove :=
  { id := 7, interfaces := ["smartmeterconsumer"], phase := phase, currentPower := 0
    maxPowerConsumption := 900, power := true, totalEnergyConsumed := 0
    simulationCycle := 0 }

/-- A smart meter with all states at 0. -/
def exampleMeter : SmartMeter :=
  { id := 8, interfaces := ["energymeter", "smartmeterconsumer", "smartmeterproducer"]
    phase := "", currentPower := 0
    currentPowerPhaseA := 0, currentPowerPhaseB := 0, currentPowerPhaseC := 0
    totalEnergyConsumed := 0, totalEnergyProduced := 0 }

/-- A state with one smart meter and one consumer on the given phase. -/
def exampleHousehold (phase : String) : SimState :=
  { inverters := [], wallboxes := [], cars := [], stoves := [exampleConsumer phase]
    smartMeters := [exampleMeter] }

/-- A state with two free wallboxes and one unplugged car, car 3. -/
def exampleGarage : SimState :=
  { inverters := [], wallboxes := [exampleWallbox 1 none, exampleWallbox 2 none]
    cars := [exampleCar 3 false 50 none], stoves := [], smartMeters := [] }

/-- The state `exampleTwoWallboxes` with a `lastChargeUpdateTime` of 0 for car 3
as well. -/
def exampleTwoWallboxesWarm : SimState :=
  { inverters := []
    wallboxes := [exampleWallbox 1 (some 3), exampleWallbox 2 (some 4)]
    cars := [exampleCar 3 true 50 (some 0), exampleCar 4 true 50 (some 0)]
    stoves := [], smartMeters := [] }

/-! ## `calculateSunriseSunset` (lines 307-391) -/

/-- The macro `CIVIL_ZENITH` of line 38. -/
noncomputable def CIVIL_ZENITH : ℝ := 90.83333

/-- The function `qRadiansToDegrees`. -/
noncomputable def qRadiansToDegrees (radians : ℝ) : ℝ := radians * (180 / Real.pi)

/-- The function `qFloor`. -/
noncomputable def qFloor (v : ℝ) : Int := ⌊v⌋

/-- The function `qRound` on a non-negative `double`, `int(d + 0.5)`; the source
applies it to a value above 270. -/
noncomputable def qRound (d : ℝ) : Int := ⌊d + 1 / 2⌋

/-- What a `QDateTime` argument of `calculateSunriseSunset` is read for: the day
of the year of its date, its offset from UTC in seconds, and the time of the
start of its date in milliseconds since the epoch. -/
structure QDateTime where
  dayOfYear : Int
  offsetFromUtc : Int
  dateMSecs : Int

/-- The milliseconds since the start of the day of `QTime(hour, minute)`; a
`QDateTime` built from a date and an invalid `QTime` is the start of the date. -/
def qTimeMSecs (hour minute : Int) : Int :=
  if 0 ≤ hour ∧ hour ≤ 23 ∧ 0 ≤ minute ∧ minute ≤ 59 then (hour * 60 + minute) * 60000 else 0

/-- The function `calculateSunriseSunset`, line by line; the pair of times is in
milliseconds since the epoch. -/
noncomputable def calculateSunriseSunset (latitude longitude : ℝ) (dateTime : QDateTime) :
    Int × Int :=
  let dayOfYear : Int := dateTime.dayOfYear
  let offset : Int := Int.tdiv (Int.tdiv dateTime.offsetFromUtc 60) 60
  let longitudeHour : ℝ := longitude / 15
  let tRise : ℝ := dayOfYear + ((6 - longitudeHour) / 24)
  let tSet : ℝ := dayOfYear + ((18 - longitudeHour) / 24)
  let mRise : ℝ := (0.9856 * tRise) - 3.289
  let mSet : ℝ := (0.9856 * tSet) - 3.289
  let tmp1 : ℝ := mRise + (1.916 * Real.sin (qDegreesToRadians mRise))
    + (0.020 * Real.sin (qDegreesToRadians (2 * mRise))) + 282.634
  let lRise : ℝ := ((Int.tmod (qFloor (tmp1 + 360)) 360 : Int) : ℝ) + (tmp1 - qFloor tmp1)
  let tmp2 : ℝ := mSet + (1.916 * Real.sin (qDegreesToRadians mSet))
    + (0.020 * Real.sin (qDegreesToRadians (2 * mSet))) + 282.634
  let lSet : ℝ := ((Int.tmod (qFloor (tmp2 + 360)) 360 : Int) : ℝ) + (tmp2 - qFloor tmp2)
  let tmp3 : ℝ := qRadiansToDegrees
    (Real.arctan (0.91764 * Real.tan (qDegreesToRadians (1.0 * lRise))))
  let raRise0 : ℝ := ((Int.tmod (qFloor (tmp3 + 360)) 360 : Int) : ℝ) + (tmp3 - qFloor tmp3)
  let tmp4 : ℝ := qRadiansToDegrees
    (Real.arctan (0.91764 * Real.tan (qDegreesToRadians (1.0 * lSet))))
  let raSet0 : ℝ := ((Int.tmod (qRound (tmp4 + 360)) 360 : Int) : ℝ) + (tmp4 - qFloor tmp4)
  let lQuadrantRise : Int := qFloor (lRise / 90) * 90
  let raQuadrantRise : Int := qFloor (raRise0 / 90) * 90
  let raRise1 : ℝ := raRise0 + ((lQuadrantRise - raQuadrantRise : Int) : ℝ)
  let lQuadrantSet : Int := qFloor (lSet / 90) * 90
  let raQuadrantSet : Int := qFloor (raSet0 / 90) * 90
  let raSet1 : ℝ := raSet0 + ((lQuadrantSet - raQuadrantSet : Int) : ℝ)
  let raRise : ℝ := raRise1 / 15
  let raSet : ℝ := raSet1 / 15
  let sinDecRise : ℝ := 0.39782 * Real.sin (qDegreesToRadians (1.0 * lRise))
  let cosDecRise : ℝ := Real.cos (Real.arcsin sinDecRise)
  let sinDecSet : ℝ := 0.39782 * Real.sin (qDegreesToRadians (1.0 * lSet))
  let cosDecSet : ℝ := Real.cos (Real.arcsin sinDecSet)
  let cosZenith : ℝ := Real.cos (qDegreesToRadians CIVIL_ZENITH)
  let radianLat : ℝ := qDegreesToRadians latitude
  let sinLatitude : ℝ := Real.sin radianLat
  let cosLatitude : ℝ := Real.cos radianLat
  let cosHRise : ℝ := (cosZenith - (sinDecRise * sinLatitude)) / (cosDecRise * cosLatitude)
  let cosHSet : ℝ := (cosZenith - (sinDecSet * sinLatitude)) / (cosDecSet * cosLatitude)
  let hRise : ℝ := (360 - qRadiansToDegrees (Real.arccos cosHRise)) / 15
  let hSet : ℝ := qRadiansToDegrees (Real.arccos cosHSet) / 15
  let tRise2 : ℝ := hRise + raRise - (0.06571 * tRise) - 6.622
  let tSet2 : ℝ := hSet + raSet - (0.06571 * tSet) - 6.622
  let tmp5 : ℝ := tRise2 - longitudeHour
  let utRise : ℝ := ((Int.tmod (qFloor (tmp5 + 24)) 24 : Int) : ℝ) + (tmp5 - qFloor tmp5)
  let tmp6 : ℝ := tSet2 - longitudeHour
  let utSet : ℝ := ((Int.tmod (qFloor (tmp6 + 24)) 24 : Int) : ℝ) + (tmp6 - qFloor tmp6)
  let tmp7 : ℝ := utRise + offset
  let localtRise : ℝ := ((Int.tmod (qFloor (tmp7 + 24)) 24 : Int) : ℝ) + (tmp7 - qFloor tmp7)
  let tmp8 : ℝ := utSet + offset
  let localtSet : ℝ := ((Int.tmod (qFloor (tmp8 + 24)) 24 : Int) : ℝ) + (tmp8 - qFloor tmp8)
  let hourRise : Int := qFloor localtRise
  let minuteRise : Int := qFloor ((localtRise - qFloor localtRise) * 60)
  let hourSet : Int := qFloor localtSet
  let minuteSet : Int := qFloor ((localtSet - qFloor localtSet) * 60)
  let sunrise : Int := dateTime.dateMSecs + qTimeMSecs hourRise minuteRise
  let sunset : Int := dateTime.dateMSecs + qTimeMSecs hourSet minuteSet
  (sunrise, sunset)

/-! ### The steps of `calculateSunriseSunset` by name -/

/-- The expression `qFloor(tmp + m) % m + (tmp - qFloor(tmp))` of lines 323, 325,
329 (`m = 360`) and 371, 373, 377, 379 (`m = 24`). -/
noncomputable def wrapInto (m : Int) (tmp : ℝ) : ℝ :=
  ((Int.tmod (qFloor (tmp + m)) m : Int) : ℝ) + (tmp - qFloor tmp)

/-- The expression `qRound(tmp + 360) % 360 + (tmp - qFloor(tmp))` of line 331. -/
noncomputable def wrapIntoRounded (m : Int) (tmp : ℝ) : ℝ :=
  ((Int.tmod (qRound (tmp + m)) m : Int) : ℝ) + (tmp - qFloor tmp)

/-- Lines 313-315: the approximate time for the base hour 6 (rise) or 18
(set). -/
noncomputable def approxTime (longitude : ℝ) (dayOfYear : Int) (hour : ℝ) : ℝ :=
  dayOfYear + ((hour - longitude / 15) / 24)

/-- Lines 322 and 324: the true longitude of the sun before it is wrapped. -/
noncomputable def trueLongitudeRaw (t : ℝ) : ℝ :=
  ((0.9856 * t) - 3.289) + (1.916 * Real.sin (qDegreesToRadians ((0.9856 * t) - 3.289)))
    + (0.020 * Real.sin (qDegreesToRadians (2 * ((0.9856 * t) - 3.289)))) + 282.634

/-- Lines 323 and 325: the true longitude of the sun. -/
noncomputable def trueLongitude (t : ℝ) : ℝ := wrapInto 360 (trueLongitudeRaw t)

/-- Lines 328 and 330: the right ascension before it is wrapped. -/
noncomputable def rightAscensionRaw (l : ℝ) : ℝ :=
  qRadiansToDegrees (Real.arctan (0.91764 * Real.tan (qDegreesToRadians (1.0 * l))))

/-- Lines 334-340: the right ascension moved into the quadrant of `l`. -/
noncomputable def sameQuadrant (l ra : ℝ) : ℝ :=
  ra + ((qFloor (l / 90) * 90 - qFloor (ra / 90) * 90 : Int) : ℝ)

/-- Lines 347-359: the cosine of the local hour angle. -/
noncomputable def cosHourAngle (latitude l : ℝ) : ℝ :=
  (Real.cos (qDegreesToRadians CIVIL_ZENITH)
      - ((0.39782 * Real.sin (qDegreesToRadians (1.0 * l))) * Real.sin (qDegreesToRadians latitude)))
    / (Real.cos (Real.arcsin (0.39782 * Real.sin (qDegreesToRadians (1.0 * l))))
      * Real.cos (qDegreesToRadians latitude))

/-- The hour angle of the rise in hours (line 362). -/
noncomputable def hourAngleRise (latitude l : ℝ) : ℝ :=
  (360 - qRadiansToDegrees (Real.arccos (cosHourAngle latitude l))) / 15

/-- The hour angle of the set in hours (line 363). -/
noncomputable def hourAngleSet (latitude l : ℝ) : ℝ :=
  qRadiansToDegrees (Real.arccos (cosHourAngle latitude l)) / 15

/-- Line 366: the local mean time of the rise. -/
noncomputable def localMeanRise (latitude longitude : ℝ) (dayOfYear : Int) : ℝ :=
  hourAngleRise latitude (trueLongitude (approxTime longitude dayOfYear 6))
    + sameQuadrant (trueLongitude (approxTime longitude dayOfYear 6))
        (wrapInto 360 (rightAscensionRaw (trueLongitude (approxTime longitude dayOfYear 6)))) / 15
    - (0.06571 * approxTime longitude dayOfYear 6) - 6.622

/-- Line 367: the local mean time of the set. -/
noncomputable def localMeanSet (latitude longitude : ℝ) (dayOfYear : Int) : ℝ :=
  hourAngleSet latitude (trueLongitude (approxTime longitude dayOfYear 18))
    + sameQuadrant (trueLongitude (approxTime longitude dayOfYear 18))
        (wrapIntoRounded 360
          (rightAscensionRaw (trueLongitude (approxTime longitude dayOfYear 18)))) / 15
    - (0.06571 * approxTime longitude dayOfYear 18) - 6.622

/-- Line 310: the offset from UTC in whole hours. -/
def offsetHours (dateTime : QDateTime) : Int :=
  Int.tdiv (Int.tdiv dateTime.offsetFromUtc 60) 60

/-- Lines 370-379: a local mean time taken to UTC and then to local time. -/
noncomputable def toLocalTime (longitude : ℝ) (offset : Int) (t : ℝ) : ℝ :=
  wrapInto 24 (wrapInto 24 (t - longitude / 15) + offset)

/-- The value `localtRise` of line 377. -/
noncomputable def localtRise (latitude longitude : ℝ) (dateTime : QDateTime) : ℝ :=
  toLocalTime longitude (offsetHours dateTime)
    (localMeanRise latitude longitude dateTime.dayOfYear)

/-- The value `localtSet` of line 379. -/
noncomputable def localtSet (latitude longitude : ℝ) (dateTime : QDateTime) : ℝ :=
  toLocalTime longitude (offsetHours dateTime)
    (localMeanSet latitude longitude dateTime.dayOfYear)

/-- Lines 382 and 384: the hour of a local time. -/
noncomputable def hourOf (localt : ℝ) : Int := qFloor localt

/-- Lines 383 and 385: the minute of a local time. -/
noncomputable def minuteOf (localt : ℝ) : Int := qFloor ((localt - qFloor localt) * 60)

/-- Day 126 of a year (6 May) with the given offset from UTC in seconds; the
date starts at time 0. -/
def exampleDay (offsetFromUtc : Int) : QDateTime :=
  { dayOfYear := 126, offsetFromUtc := offsetFromUtc, dateMSecs := 0 }

/-- The inputs of a tick that runs at time `now` on the date of `dateTime`
(lines 130-133): sunrise and sunset are computed for latitude 48 and
longitude 10. -/
noncomputable def tickEnvOf (dateTime : QDateTime) (now : Int) (randA randB randC : Nat) :
    TickEnv :=
  { sunrise := (calculateSunriseSunset 48 10 dateTime).1
    sunset := (calculateSunriseSunset 48 10 dateTime).2
    now := now, randA := randA, randB := randB, randC := randC }

/-- A stove of 2000 W that was switched off while it reported 2000 W, counter
at 3. -/
def exampleStoveSwitchedOff : Stove :=
  { exampleStove false 3 with currentPower := 2000, totalEnergyConsumed := 1 }

/-- A state with one stove that is switched off and reports 2000 W. -/
def exampleKitchenOff : SimState :=
  { exampleKitchen with stoves := [exampleStoveSwitchedOff] }

/-! ## General lemmas -/

/-! The hypotheses of the facts inside a conjunction keep their names. -/

set_option linter.unusedVariables false

/-- A conjunction from its left part and from its right part under the left
one. -/
theorem and_of_left {a b : Prop} (ha : a) (hb : a → b) : a ∧ b := ⟨ha, hb ha⟩

theorem mem_modifyFirst_cases {α : Type} (p : α → Bool) (f : α → α) (l : List α) (y : α)
    (hy : y ∈ modifyFirst p f l) : y ∈ l ∨ ∃ x ∈ l, y = f x := by
  induction l with
  | nil => simp [modifyFirst] at hy
  | cons x xs ih =>
    unfold modifyFirst at hy
    split at hy
    · rcases List.mem_cons.1 hy with h | h
      · exact Or.inr ⟨x, List.mem_cons_self _ _, h⟩
      · exact Or.inl (List.mem_cons_of_mem _ h)
    · rcases List.mem_cons.1 hy with h | h
      · exact Or.inl (h ▸ List.mem_cons_self _ _)
      · rcases ih h with h1 | ⟨z, hz, hzy⟩
        · exact Or.inl (List.mem_cons_of_mem _ h1)
        · exact Or.inr ⟨z, List.mem_cons_of_mem _ hz, hzy⟩

theorem forall_modifyFirst {α : Type} (P : α → Prop) (p : α → Bool) (f : α → α) (l : List α)
    (hf : ∀ x, P x → P (f x)) (hl : ∀ x ∈ l, P x) : ∀ y ∈ modifyFirst p f l, P y := by
  intro y hy
  rcases mem_modifyFirst_cases p f l y hy with h | ⟨x, hx, rfl⟩
  · exact hl y h
  · exact hf x (hl x hx)

theorem length_modifyFirst {α : Type} (p : α → Bool) (f : α → α) (l : List α) :
    (modifyFirst p f l).length = l.length := by
  induction l with
  | nil => rfl
  | cons x xs ih =>
    unfold modifyFirst
    split <;> simp [ih]

/-- At every position, `modifyFirst` leaves the element or replaces it by its
image. -/
theorem getElem?_modifyFirst {α : Type} (p : α → Bool) (f : α → α) (l : List α) (i : Nat)
    (x : α) (hx : l[i]? = some x) :
    (modifyFirst p f l)[i]? = some x ∨ (p x = true ∧ (modifyFirst p f l)[i]? = some (f x)) := by
  induction l generalizing i with
  | nil => simp at hx
  | cons y ys ih =>
    unfold modifyFirst
    cases i with
    | zero =>
      simp only [List.getElem?_cons_zero, Option.some.injEq] at hx
      subst hx
      split
      · rename_i h
        exact Or.inr ⟨h, by simp⟩
      · exact Or.inl (by simp)
    | succ j =>
      simp only [List.getElem?_cons_succ] at hx
      split
      · exact Or.inl (by simpa using hx)
      · simpa using ih j hx

/-- Rounding to the nearest integer, `toInt`. -/
theorem toInt_lemmas :
    -- `toInt_eq`
    (∀ (x : ℝ) (z : Int) (h1 : (z : ℝ) ≤ x + 1 / 2) (h2 : x + 1 / 2 < z + 1), toInt x = z) ∧
    -- `toInt_int_add`
    (∀ (z : Int) (x : ℝ), toInt ((z : ℝ) + x) = z + toInt x) ∧
    -- `toInt_nonneg`
    (∀ (x : ℝ) (h : 0 ≤ x), 0 ≤ toInt x) ∧
    -- `toInt_pos`
    (∀ (x : ℝ) (h : 1 ≤ x), 1 ≤ toInt x) := by
  -- `toInt_eq`
  refine and_of_left ?_ (fun _ => ?_)
  · intro x z h1 h2
    unfold toInt
    exact Int.floor_eq_iff.2 ⟨h1, h2⟩
  -- `toInt_int_add`
  refine and_of_left ?_ (fun _ => ?_)
  · intro z x
    unfold toInt
    rw [add_assoc, Int.floor_int_add]
  -- `toInt_nonneg`
  refine and_of_left ?_ (fun _ => ?_)
  · intro x h
    unfold toInt
    exact Int.floor_nonneg.2 (by linarith)
  -- `toInt_pos`
  intro x h
  unfold toInt
  exact Int.le_floor.2 (by push_cast; linarith)

/-! ## Properties of single cars that ticks and actions keep -/

/-- A property of single cars that the charging body and the drain body keep is
kept by every tick, every action and every run; the relation between
`batteryCritical` and `batteryLevel` and the sign of `batteryLevel` are such
properties. -/
theorem carInvariant_lemmas :
    -- `carInvariant_evChargerStep`
    (∀ {P : Car → Prop} (hP : CarInvariant P) (now : Int) (w : Wallbox) (cars : List Car)
        (h : ∀ c ∈ cars, P c),
      ∀ c ∈ (evChargerStep now w cars).1, P c) ∧
    -- `carInvariant_updateEvChargers`
    (∀ {P : Car → Prop} (hP : CarInvariant P) (now : Int) (ws : List Wallbox) (cars : List Car)
        (h : ∀ c ∈ cars, P c),
      ∀ c ∈ updateEvChargers now ws cars, P c) ∧
    -- `carInvariant_updateSimulation`
    (∀ {P : Car → Prop} (hP : CarInvariant P) (env : TickEnv) (s : SimState)
        (h : ∀ c ∈ s.cars, P c),
      ∀ c ∈ (updateSimulation env s).cars, P c) ∧
    -- `carInvariant_executeAction`
    (∀ {P : Car → Prop} (hP : CarInvariant P) (a : Action) (s : SimState) (h : ∀ c ∈ s.cars, P c),
      ∀ c ∈ (executeAction a s).1.cars, P c) ∧
    -- `carInvariant_run`
    (∀ {P : Car → Prop} (hP : CarInvariant P) (s : SimState) (events : List Event)
        (h : ∀ c ∈ s.cars, P c),
      ∀ c ∈ (run s events).cars, P c) ∧
    -- `criticalOk_invariant`
    (CarInvariant CriticalOk) ∧
    -- `levelNonneg_invariant`: The battery level of a car never becomes negative.
    (CarInvariant (fun c => 0 ≤ c.batteryLevel)) := by
  obtain ⟨-, toInt_int_add, -, toInt_pos⟩ := toInt_lemmas
  -- `carInvariant_evChargerStep`
  refine and_of_left ?_ (fun carInvariant_evChargerStep => ?_)
  · intro P hP now w cars h
    unfold evChargerStep
    split
    · split
      · exact forall_modifyFirst P _ _ cars (fun x hx => hP.charge now w x hx) h
      · exact h
    · exact h
  -- `carInvariant_updateEvChargers`
  refine and_of_left ?_ (fun carInvariant_updateEvChargers => ?_)
  · intro P hP now ws cars h
    induction ws generalizing cars with
    | nil => exact h
    | cons w rest ih =>
      unfold updateEvChargers
      split
      · exact carInvariant_evChargerStep hP now w cars h
      · exact ih _ (carInvariant_evChargerStep hP now w cars h)
  -- `carInvariant_updateSimulation`
  refine and_of_left ?_ (fun carInvariant_updateSimulation => ?_)
  · intro P hP env s h
    intro c hc
    rw [show (updateSimulation env s).cars = (updateEvChargers env.now s.wallboxes s.cars).map drainCar
      from rfl, List.mem_map] at hc
    obtain ⟨c0, hc0, rfl⟩ := hc
    exact hP.drain c0 (carInvariant_updateEvChargers hP env.now s.wallboxes s.cars h c0 hc0)
  -- `carInvariant_executeAction`
  refine and_of_left ?_ (fun carInvariant_executeAction => ?_)
  · intro P hP a s h
    cases a with
    | stovePower t b => exact h
    | wallboxPower t b => exact h
    | wallboxMaxChargingCurrent t v => exact h
    | carPluggedIn t b =>
      cases b with
      | true =>
        simp only [executeAction]
        split
        · exact forall_modifyFirst P _ _ s.cars (fun x hx => hP.plug x true hx) h
        · exact h
      | false =>
        simp only [executeAction]
        exact forall_modifyFirst P _ _ s.cars (fun x hx => hP.plug x false hx) h
    | carMinChargingCurrent t v =>
      simp only [executeAction]
      exact forall_modifyFirst P _ _ s.cars (fun x hx => hP.minCurrent x v hx) h
    | other => exact h
  -- `carInvariant_run`
  refine and_of_left ?_ (fun _ => ?_)
  · intro P hP s events h
    induction events generalizing s with
    | nil => exact h
    | cons e es ih =>
      apply ih (step s e)
      cases e with
      | tick env => exact carInvariant_updateSimulation hP env s h
      | action a => exact carInvariant_executeAction hP a s h
  -- `criticalOk_invariant`
  refine and_of_left ?_ (fun _ => ?_)
  · refine ⟨?_, ?_, fun _ _ h => h, fun _ _ h => h⟩
    · intro now w c h
      unfold chargeCar
      split
      · split
        · exact h
        · dsimp only
          split
          · dsimp only [CriticalOk]
          · exact h
      · exact h
    · intro c h
      unfold drainCar
      split
      · dsimp only [CriticalOk]
      · exact h
  -- `levelNonneg_invariant`
  refine ⟨?_, ?_, fun _ _ h => h, fun _ _ h => h⟩
  · intro now w c h
    unfold chargeCar
    split
    · split
      · exact h
      · dsimp only
        split
        · rename_i hcp
          simp only
          rw [toInt_int_add]
          have := toInt_pos _ hcp
          omega
        · exact h
    · exact h
  · intro c h
    unfold drainCar
    split
    · rename_i hc
      have := hc.2
      simp only
      omega
    · exact h

/-! ## Frame lemmas for a tick -/

/-- What a tick does to each of the five lists of things, and runs of ticks
taken apart. -/
theorem frame_lemmas :
    -- `updateSimulation_wallboxes`
    (∀ (env : TickEnv) (s : SimState), (updateSimulation env s).wallboxes = s.wallboxes) ∧
    -- `updateSimulation_cars`
    (∀ (env : TickEnv) (s : SimState),
      (updateSimulation env s).cars = (updateEvChargers env.now s.wallboxes s.cars).map drainCar) ∧
    -- `updateSimulation_stoves`
    (∀ (env : TickEnv) (s : SimState),
      (updateSimulation env s).stoves = s.stoves.map updateStove) ∧
    -- `updateSimulation_inverters`
    (∀ (env : TickEnv) (s : SimState),
      (updateSimulation env s).inverters = s.inverters.map (updateInverter env)) ∧
    -- `step_tick`
    (∀ (s : SimState) (env : TickEnv), step s (Event.tick env) = updateSimulation env s) ∧
    -- `step_action`
    (∀ (s : SimState) (a : Action), step s (Event.action a) = (executeAction a s).1) ∧
    -- `run_nil`
    (∀ (s : SimState), run s [] = s) ∧
    -- `run_cons`
    (∀ (s : SimState) (e : Event) (es : List Event), run s (e :: es) = run (step s e) es) ∧
    -- `runTicks_nil`
    (∀ (s : SimState), runTicks s [] = s) ∧
    -- `runTicks_cons`
    (∀ (s : SimState) (env : TickEnv) (envs : List TickEnv),
      runTicks s (env :: envs) = runTicks (updateSimulation env s) envs) ∧
    -- `runTicks_append`
    (∀ (s : SimState) (envs : List TickEnv) (env : TickEnv),
      runTicks s (envs ++ [env]) = updateSimulation env (runTicks s envs)) ∧
    -- `runTicks_wallboxes`
    (∀ (s : SimState) (envs : List TickEnv), (runTicks s envs).wallboxes = s.wallboxes) ∧
    -- `run_append_tick`
    (∀ (s : SimState) (events : List Event) (env : TickEnv),
      run s (events ++ [Event.tick env]) = updateSimulation env (run s events)) ∧
    -- `updateSimulation_smartMeters`
    (∀ (env : TickEnv) (s : SimState),
      (updateSimulation env s).smartMeters =
          s.smartMeters.map (updateSmartMeter (totalPhasesConsumption env (updateDevices env s))
            (totalPhaseProduction (updateDevices env s).inverters))) := by
  -- `updateSimulation_wallboxes`
  refine and_of_left ?_ (fun updateSimulation_wallboxes => ?_)
  · intro env s
    exact rfl
  -- `updateSimulation_cars`
  refine and_of_left ?_ (fun _ => ?_)
  · intro env s
    exact rfl
  -- `updateSimulation_stoves`
  refine and_of_left ?_ (fun _ => ?_)
  · intro env s
    exact rfl
  -- `updateSimulation_inverters`
  refine and_of_left ?_ (fun _ => ?_)
  · intro env s
    exact rfl
  -- `step_tick`
  refine and_of_left ?_ (fun _ => ?_)
  · intro s env
    exact rfl
  -- `step_action`
  refine and_of_left ?_ (fun _ => ?_)
  · intro s a
    exact rfl
  -- `run_nil`
  refine and_of_left ?_ (fun _ => ?_)
  · intro s
    exact rfl
  -- `run_cons`
  refine and_of_left ?_ (fun _ => ?_)
  · intro s e es
    exact rfl
  -- `runTicks_nil`
  refine and_of_left ?_ (fun _ => ?_)
  · intro s
    exact rfl
  -- `runTicks_cons`
  refine and_of_left ?_ (fun runTicks_cons => ?_)
  · intro s env envs
    exact rfl
  -- `runTicks_append`
  refine and_of_left ?_ (fun _ => ?_)
  · intro s envs env
    induction envs generalizing s with
    | nil => rfl
    | cons e es ih => exact ih (updateSimulation e s)
  -- `runTicks_wallboxes`
  refine and_of_left ?_ (fun _ => ?_)
  · intro s envs
    induction envs generalizing s with
    | nil => rfl
    | cons e es ih => rw [runTicks_cons, ih, updateSimulation_wallboxes]
  -- `run_append_tick`
  refine and_of_left ?_ (fun _ => ?_)
  · intro s events env
    induction events generalizing s with
    | nil => rfl
    | cons e es ih => exact ih (step s e)
  -- `updateSimulation_smartMeters`
  intro env s
  exact rfl

/-! ## The charging step of one wallbox and its car -/

/-- The branches of the charging body `chargeCar`. -/
theorem chargeCar_lemmas :
    -- `chargeCar_full`
    (∀ (now : Int) (w : Wallbox) (car : Car) (h : ¬ car.batteryLevel < 100),
      chargeCar now w car = (car, false)) ∧
    -- `chargeCar_warmup`
    (∀ (now : Int) (w : Wallbox) (car : Car) (h : car.batteryLevel < 100)
        (hl : car.lastChargeUpdateTime = none),
      chargeCar now w car = ({ car with lastChargeUpdateTime := some now }, true)) ∧
    -- `chargeCar_wait`
    (∀ (now : Int) (w : Wallbox) (car : Car) (t : Int) (h : car.batteryLevel < 100)
        (hl : car.lastChargeUpdateTime = some t) (hcp : chargedPercentage now w car t < 1),
      chargeCar now w car = (car, false)) ∧
    -- `chargeCar_commit`
    (∀ (now : Int) (w : Wallbox) (car : Car) (t : Int) (h : car.batteryLevel < 100)
        (hl : car.lastChargeUpdateTime = some t) (hcp : 1 ≤ chargedPercentage now w car t),
      chargeCar now w car =
          ({ car with
              lastChargeUpdateTime := some now
              batteryLevel := toInt ((car.batteryLevel : ℝ) + chargedPercentage now w car t)
              batteryCritical :=
                decide (toInt ((car.batteryLevel : ℝ) + chargedPercentage now w car t) < 10) },
            false)) ∧
    -- `chargeCar_id`
    (∀ (now : Int) (w : Wallbox) (car : Car), (chargeCar now w car).1.id = car.id) ∧
    -- `chargeCar_pluggedIn`
    (∀ (now : Int) (w : Wallbox) (car : Car), (chargeCar now w car).1.pluggedIn = car.pluggedIn) ∧
    -- `chargeCar_settings`
    (∀ (now : Int) (w : Wallbox) (c : Car),
      ((chargeCar now w c).1.interfaces, (chargeCar now w c).1.phase) = (c.interfaces, c.phase)) := by
  -- `chargeCar_full`
  refine and_of_left ?_ (fun _ => ?_)
  · intro now w car h
    dsimp only [chargeCar]
    simp [h]
  -- `chargeCar_warmup`
  refine and_of_left ?_ (fun _ => ?_)
  · intro now w car h hl
    dsimp only [chargeCar]
    simp [h, hl]
  -- `chargeCar_wait`
  refine and_of_left ?_ (fun _ => ?_)
  · intro now w car t h hl hcp
    dsimp only [chargeCar]
    simp [h, hl, not_le.2 hcp]
  -- `chargeCar_commit`
  refine and_of_left ?_ (fun _ => ?_)
  · intro now w car t h hl hcp
    dsimp only [chargeCar]
    simp [h, hl, hcp]
  -- `chargeCar_id`
  refine and_of_left ?_ (fun _ => ?_)
  · intro now w car
    unfold chargeCar
    split
    · split
      · rfl
      · dsimp only
        split <;> rfl
    · rfl
  -- `chargeCar_pluggedIn`
  refine and_of_left ?_ (fun _ => ?_)
  · intro now w car
    unfold chargeCar
    split
    · split
      · rfl
      · dsimp only
        split <;> rfl
    · rfl
  -- `chargeCar_settings`
  intro now w c
  unfold chargeCar
  split
  · split
    · rfl
    · dsimp only
      split <;> rfl
  · rfl

theorem find?_modifyFirst_same {α : Type} (p : α → Bool) (f : α → α) (l : List α)
    (hf : ∀ x, p x = true → p (f x) = true) :
    (modifyFirst p f l).find? p = (l.find? p).map f := by
  induction l with
  | nil => rfl
  | cons x xs ih =>
    unfold modifyFirst
    by_cases hx : p x = true
    · simp [hx, hf x hx]
    · simp [hx, ih]

theorem find?_modifyFirst_other {α : Type} (p q : α → Bool) (f : α → α) (l : List α)
    (hpq : ∀ x, p x = true → q x = false) (hf : ∀ x, p x = true → q (f x) = false) :
    (modifyFirst p f l).find? q = l.find? q := by
  induction l with
  | nil => rfl
  | cons x xs ih =>
    unfold modifyFirst
    by_cases hx : p x = true
    · simp [hx, hpq x hx, hf x hx]
    · by_cases hq : q x = true
      · simp [hx, hq]
      · simp [hx, hq, ih]

/-- Looking up a car by its id, and the drain body `drainCar`. -/
theorem car_lemmas :
    -- `findById_some`
    (∀ {cars : List Car} {o : Option ThingId} {car : Car} (h : findById cars o = some car),
      o = some car.id ∧ car ∈ cars) ∧
    -- `updateEvChargers_untouched`: A car no active wallbox points to is left alone by the loop
    -- over the wallboxes.
    (∀ (now : Int) (ws : List Wallbox) (cars : List Car) (i : Nat) (c : Car)
        (hc : cars[i]? = some c)
        (hfree : ∀ w ∈ ws, w.pluggedIn = true → w.power = true → w.connectedCarThingId ≠ some c.id),
      (updateEvChargers now ws cars)[i]? = some c) ∧
    -- `drainCar_id`
    (∀ (c : Car), (drainCar c).id = c.id) ∧
    -- `drainCar_pluggedIn`
    (∀ (c : Car), (drainCar c).pluggedIn = c.pluggedIn) ∧
    -- `drainCar_level_unplugged`
    (∀ (c : Car) (hp : c.pluggedIn = false) (h0 : 0 ≤ c.batteryLevel),
      (drainCar c).batteryLevel = max (c.batteryLevel - 1) 0) ∧
    -- `findById_modifyFirst_same`
    (∀ (i : ThingId) (f : Car → Car) (cars : List Car) (hf : ∀ x, (f x).id = x.id),
      findById (modifyFirst (fun c => c.id == i) f cars) (some i) =
          (findById cars (some i)).map f) ∧
    -- `findById_modifyFirst_other`
    (∀ (i j : ThingId) (hij : i ≠ j) (f : Car → Car) (cars : List Car)
        (hf : ∀ x, (f x).id = x.id),
      findById (modifyFirst (fun c => c.id == i) f cars) (some j) = findById cars (some j)) ∧
    -- `findById_map`
    (∀ (f : Car → Car) (cars : List Car) (o : Option ThingId) (hf : ∀ x, (f x).id = x.id),
      findById (cars.map f) o = (findById cars o).map f) ∧
    -- `drainCar_plugged`
    (∀ (c : Car) (h : c.pluggedIn = true), drainCar c = c) ∧
    -- `drainCar_settings`
    (∀ (c : Car), ((drainCar c).interfaces, (drainCar c).phase) = (c.interfaces, c.phase)) := by
  -- `findById_some`
  refine and_of_left ?_ (fun findById_some => ?_)
  · intro cars o car h
    cases o with
    | none => simp [findById] at h
    | some i =>
      simp only [findById] at h
      have h1 := List.find?_some h
      have h2 := List.mem_of_find?_eq_some h
      simp only [beq_iff_eq] at h1
      exact ⟨by rw [h1], h2⟩
  -- `updateEvChargers_untouched`
  refine and_of_left ?_ (fun _ => ?_)
  · intro now ws cars i c hc hfree
    induction ws generalizing cars with
    | nil => exact hc
    | cons w rest ih =>
      have hstep : (evChargerStep now w cars).1[i]? = some c := by
        unfold evChargerStep
        split
        · rename_i hact
          split
          · rename_i car hfind
            rcases getElem?_modifyFirst (fun x => x.id == car.id)
                (fun x => (chargeCar now w x).1) cars i c hc with h | ⟨hp, _⟩
            · exact h
            · exfalso
              have hid : c.id = car.id := by simpa using hp
              have := (findById_some hfind).1
              exact hfree w (List.mem_cons_self _ _) hact.1 hact.2 (by rw [this, hid])
          · exact hc
        · exact hc
      unfold updateEvChargers
      split
      · exact hstep
      · exact ih _ hstep (fun w' hw' => hfree w' (List.mem_cons_of_mem _ hw'))
  -- `drainCar_id`
  refine and_of_left ?_ (fun _ => ?_)
  · intro c
    unfold drainCar
    split <;> rfl
  -- `drainCar_pluggedIn`
  refine and_of_left ?_ (fun _ => ?_)
  · intro c
    unfold drainCar
    split <;> rfl
  -- `drainCar_level_unplugged`
  refine and_of_left ?_ (fun _ => ?_)
  · intro c hp h0
    unfold drainCar
    split
    · rename_i h
      have := h.2
      simp only
      omega
    · rename_i h
      have : c.batteryLevel = 0 := by
        by_contra hne
        exact h ⟨hp, by omega⟩
      simp [this]
  -- `findById_modifyFirst_same`
  refine and_of_left ?_ (fun _ => ?_)
  · intro i f cars hf
    unfold findById
    exact find?_modifyFirst_same _ f cars (fun x hx => by simpa [hf x] using hx)
  -- `findById_modifyFirst_other`
  refine and_of_left ?_ (fun _ => ?_)
  · intro i j hij f cars hf
    unfold findById
    apply find?_modifyFirst_other
    · intro x hx
      have : x.id = i := by simpa using hx
      simp [this, hij]
    · intro x hx
      have : x.id = i := by simpa using hx
      simp [hf x, this, hij]
  -- `findById_map`
  refine and_of_left ?_ (fun _ => ?_)
  · intro f cars o hf
    cases o with
    | none => rfl
    | some i =>
      have hcomp : ((fun c : Car => c.id == i) ∘ f) = fun c : Car => c.id == i := by
        funext x
        simp [hf x]
      simp only [findById, List.find?_map, hcomp]
  -- `drainCar_plugged`
  refine and_of_left ?_ (fun _ => ?_)
  · intro c h
    dsimp only [drainCar]
    simp [h]
  -- `drainCar_settings`
  intro c
  unfold drainCar
  split <;> rfl

/-! ## Stoves -/

/-- The stove body `updateStove`. -/
theorem stove_lemmas :
    -- `updateStove_off`
    (∀ (x : Stove) (h : x.power = false), updateStove x = x) ∧
    -- `updateStove_power`
    (∀ (x : Stove), (updateStove x).power = x.power) ∧
    -- `updateStove_maxPowerConsumption`
    (∀ (x : Stove), (updateStove x).maxPowerConsumption = x.maxPowerConsumption) ∧
    -- `updateStove_on_currentPower`
    (∀ (x : Stove) (h : x.power = true),
      (updateStove x).currentPower
          = if Int.tmod x.simulationCycle 12 < 4 then x.maxPowerConsumption else 0) ∧
    -- `updateStove_on_totalEnergyConsumed`
    (∀ (x : Stove) (h : x.power = true),
      (updateStove x).totalEnergyConsumed
          = x.totalEnergyConsumed
            + if Int.tmod x.simulationCycle 12 < 4 then (x.maxPowerConsumption / 1000) / 3600 * 5
              else 0) ∧
    -- `updateStove_on_simulationCycle`
    (∀ (x : Stove) (h : x.power = true),
      (updateStove x).simulationCycle = Int.tmod x.simulationCycle 12 + 1) ∧
    -- `iterate_updateStove_on`: A stove that is switched on, `n` ticks after its counter was `c
    -- ≥ 0`: it is still on, its setting is the same and its counter is at position
    -- `cyclePosition c n`.
    (∀ (x : Stove) (n : Nat) (hp : x.power = true) (hc : 0 ≤ x.simulationCycle),
      (updateStove^[n] x).power = true ∧
          (updateStove^[n] x).maxPowerConsumption = x.maxPowerConsumption ∧
          0 ≤ (updateStove^[n] x).simulationCycle ∧
          Int.tmod (updateStove^[n] x).simulationCycle 12 = cyclePosition x.simulationCycle n) ∧
    -- `stoveOk_updateStove`
    (∀ (m : ℝ) (x : Stove) (h : StoveOk m x), StoveOk m (updateStove x)) ∧
    -- `updateStove_totalEnergyConsumed_le`
    (∀ (x : Stove) (h : 0 ≤ x.maxPowerConsumption),
      x.totalEnergyConsumed ≤ (updateStove x).totalEnergyConsumed) ∧
    -- `updateStove_settings`
    (∀ (x : Stove),
      ((updateStove x).interfaces, (updateStove x).phase) = (x.interfaces, x.phase)) ∧
    -- `updateStove_exampleConsumer`
    (∀ (phase : String),
      updateStove (exampleConsumer phase)
          = { exampleConsumer phase with
              currentPower := 900
              totalEnergyConsumed := 0 + (900 / 1000) / 60 / 60 * 5
              simulationCycle := 1 }) ∧
    -- `stove_power_false_eq`
    (∀ (x : Stove) (h : x.power = false), { x with power := false } = x) ∧
    -- `updateStove_id`
    (∀ (x : Stove), (updateStove x).id = x.id) := by
  -- `updateStove_off`
  refine and_of_left ?_ (fun _ => ?_)
  · intro x h
    dsimp only [updateStove]
    simp [h]
  -- `updateStove_power`
  refine and_of_left ?_ (fun updateStove_power => ?_)
  · intro x
    unfold updateStove
    split <;> rfl
  -- `updateStove_maxPowerConsumption`
  refine and_of_left ?_ (fun updateStove_maxPowerConsumption => ?_)
  · intro x
    unfold updateStove
    split <;> rfl
  -- `updateStove_on_currentPower`
  refine and_of_left ?_ (fun _ => ?_)
  · intro x h
    dsimp only [updateStove]
    simp [h]
  -- `updateStove_on_totalEnergyConsumed`
  refine and_of_left ?_ (fun _ => ?_)
  · intro x h
    dsimp only [updateStove]
    simp only [h, if_true]
    split
    · ring
    · ring
  -- `updateStove_on_simulationCycle`
  refine and_of_left ?_ (fun updateStove_on_simulationCycle => ?_)
  · intro x h
    dsimp only [updateStove]
    simp [h]
  -- `iterate_updateStove_on`
  refine and_of_left ?_ (fun _ => ?_)
  · intro x n hp hc
    induction n with
    | zero =>
      refine ⟨hp, rfl, hc, ?_⟩
      dsimp only [cyclePosition]
      simp [Int.tmod_eq_emod hc (by norm_num : (0 : Int) ≤ 12)]
    | succ k ih =>
      obtain ⟨h1, h2, h3, h4⟩ := ih
      rw [Function.iterate_succ_apply']
      have hcyc := updateStove_on_simulationCycle _ h1
      have hpos : 0 ≤ Int.tmod (updateStove^[k] x).simulationCycle 12 := by
        rw [Int.tmod_eq_emod h3 (by norm_num)]
        omega
      refine ⟨by rw [updateStove_power, h1], by rw [updateStove_maxPowerConsumption, h2],
        by rw [hcyc]; omega, ?_⟩
      rw [hcyc, Int.tmod_eq_emod (by omega) (by norm_num), h4]
      unfold cyclePosition
      push_cast
      omega
  -- `stoveOk_updateStove`
  refine and_of_left ?_ (fun _ => ?_)
  · intro m x h
    unfold updateStove
    split
    · refine ⟨h.1, ?_⟩
      simp only
      split
      · exact Or.inr h.1
      · exact Or.inl rfl
    · exact h
  -- `updateStove_totalEnergyConsumed_le`
  refine and_of_left ?_ (fun _ => ?_)
  · intro x h
    unfold updateStove
    split
    · simp only
      split
      · have : 0 ≤ x.maxPowerConsumption / 1000 / 60 / 60 * 5 := by positivity
        linarith
      · exact le_refl _
    · exact le_refl _
  -- `updateStove_settings`
  refine and_of_left ?_ (fun _ => ?_)
  · intro x
    unfold updateStove
    split <;> rfl
  -- `updateStove_exampleConsumer`
  refine and_of_left ?_ (fun _ => ?_)
  · intro phase
    dsimp only [updateStove, exampleConsumer]
    simp [Int.tmod]
  -- `stove_power_false_eq`
  refine and_of_left ?_ (fun _ => ?_)
  · intro x h
    cases x
    simp only at h
    subst h
    rfl
  -- `updateStove_id`
  intro x
  unfold updateStove
  split <;> rfl

/-- Stoves through ticks and actions. -/
theorem stove_run_lemmas :
    -- `runTicks_stoves`
    (∀ (s : SimState) (envs : List TickEnv),
      (runTicks s envs).stoves = s.stoves.map (updateStove^[envs.length])) ∧
    -- `stoveOk_step`
    (∀ (m : ℝ) (s : SimState) (e : Event) (i : Nat)
        (h : ∃ x, s.stoves[i]? = some x ∧ StoveOk m x),
      ∃ x, (step s e).stoves[i]? = some x ∧ StoveOk m x) ∧
    -- `stoveOk_run`
    (∀ (m : ℝ) (s : SimState) (events : List Event) (i : Nat)
        (h : ∃ x, s.stoves[i]? = some x ∧ StoveOk m x),
      ∃ x, (run s events).stoves[i]? = some x ∧ StoveOk m x) ∧
    -- `stove_off_step`: An event other than the power-on action for a stove that is switched off
    -- leaves that stove as it is.
    (∀ (s : SimState) (e : Event) (i : Nat) (st : Stove) (hst : s.stoves[i]? = some st)
        (hoff : st.power = false) (he : e ≠ Event.action (Action.stovePower st.id true)),
      (step s e).stoves[i]? = some st) ∧
    -- `stove_off_run`
    (∀ (s : SimState) (events : List Event) (i : Nat) (st : Stove) (hst : s.stoves[i]? = some st)
        (hoff : st.power = false)
        (he : ∀ e ∈ events, e ≠ Event.action (Action.stovePower st.id true)),
      (run s events).stoves[i]? = some st) := by
  obtain ⟨-, -, updateSimulation_stoves, -, step_tick, step_action, -, -, runTicks_nil,
      runTicks_cons, -⟩ := frame_lemmas
  obtain ⟨updateStove_off, -, -, -, -, -, -, stoveOk_updateStove, -, -, -,
      stove_power_false_eq, -⟩ := stove_lemmas
  -- `runTicks_stoves`
  refine and_of_left ?_ (fun _ => ?_)
  · intro s envs
    induction envs generalizing s with
    | nil => simp [runTicks_nil]
    | cons e es ih =>
      rw [runTicks_cons, ih, updateSimulation_stoves, List.map_map, List.length_cons,
        Function.iterate_succ]
  -- `stoveOk_step`
  refine and_of_left ?_ (fun stoveOk_step => ?_)
  · intro m s e i h
    obtain ⟨x, hx, hok⟩ := h
    cases e with
    | tick env =>
      refine ⟨updateStove x, ?_, stoveOk_updateStove m x hok⟩
      simp only [step_tick]
      rw [updateSimulation_stoves, List.getElem?_map, hx]
      rfl
    | action a =>
      cases a with
      | stovePower t b =>
        simp only [step_action, executeAction]
        rcases getElem?_modifyFirst (fun t' : Stove => t'.id == t)
            (fun t' => { t' with power := b }) s.stoves i x hx with h1 | ⟨_, h1⟩
        · exact ⟨x, h1, hok⟩
        · exact ⟨_, h1, hok⟩
      | wallboxPower t b => exact ⟨x, hx, hok⟩
      | wallboxMaxChargingCurrent t v => exact ⟨x, hx, hok⟩
      | carPluggedIn t b =>
        cases b with
        | true =>
          simp only [step_action, executeAction]
          split
          · exact ⟨x, hx, hok⟩
          · exact ⟨x, hx, hok⟩
        | false => exact ⟨x, hx, hok⟩
      | carMinChargingCurrent t v => exact ⟨x, hx, hok⟩
      | other => exact ⟨x, hx, hok⟩
  -- `stoveOk_run`
  refine and_of_left ?_ (fun _ => ?_)
  · intro m s events i h
    induction events generalizing s with
    | nil => exact h
    | cons e es ih => exact ih (step s e) (stoveOk_step m s e i h)
  -- `stove_off_step`
  refine and_of_left ?_ (fun stove_off_step => ?_)
  · intro s e i st hst hoff he
    cases e with
    | tick env =>
      simp only [step_tick]
      rw [updateSimulation_stoves, List.getElem?_map, hst, Option.map_some', updateStove_off st hoff]
    | action a =>
      cases a with
      | stovePower t b =>
        simp only [step_action, executeAction]
        rcases getElem?_modifyFirst (fun t' : Stove => t'.id == t)
            (fun t' => { t' with power := b }) s.stoves i st hst with h1 | ⟨hp, h1⟩
        · exact h1
        · have ht : st.id = t := by simpa using hp
          cases b with
          | true => exact absurd (by rw [ht]) he
          | false =>
            rw [h1]
            exact congrArg some (stove_power_false_eq st hoff)
      | wallboxPower t b => exact hst
      | wallboxMaxChargingCurrent t v => exact hst
      | carPluggedIn t b =>
        cases b with
        | true =>
          simp only [step_action, executeAction]
          split
          · exact hst
          · exact hst
        | false => exact hst
      | carMinChargingCurrent t v => exact hst
      | other => exact hst
  -- `stove_off_run`
  intro s events i st hst hoff he
  induction events generalizing s with
  | nil => exact hst
  | cons e es ih =>
    exact ih (step s e) (stove_off_step s e i st hst hoff (he e (List.mem_cons_self _ _)))
      (fun e' he' => he e' (List.mem_cons_of_mem _ he'))

/-- Among 12 consecutive ticks exactly 4 are at a position below 4. -/
theorem count_active_positions (c : Int) (n : Nat) :
    ((List.range 12).filter (fun k => decide (cyclePosition c (n + k) < 4))).length = 4 := by
  have hr : ∀ k : Nat, cyclePosition c (n + k) = (((c + n) % 12) + k) % 12 := by
    intro k
    unfold cyclePosition
    push_cast
    omega
  simp only [hr]
  have h12 : 0 ≤ (c + n) % 12 ∧ (c + n) % 12 < 12 := by omega
  generalize (c + (n : Int)) % 12 = r at h12
  obtain ⟨h0, h1⟩ := h12
  interval_cases r <;> decide

/-- Between sunrise and sunset the truncating division of line 138 is the floor
division. -/
theorem daylightDegrees_day (sunrise sunset now : Int) (h1 : sunrise < now) (h2 : now < sunset) :
    daylightDegrees sunrise sunset now = (now - sunrise) * 180 / (sunset - sunrise) - 90 := by
  unfold daylightDegrees
  simp only []
  rw [Int.tdiv_eq_ediv (by nlinarith) (by omega)]

/-! ## Solar inverters -/

/-- The inverter body `updateInverter` and the cosine of an angle given in
degrees. -/
theorem inverter_lemmas :
    -- `updateInverter_day`
    (∀ (env : TickEnv) (inv : SolarInverter) (h1 : env.sunrise < env.now)
        (h2 : env.now < env.sunset),
      (updateInverter env inv).currentPower =
          -(Real.cos (qDegreesToRadians ((daylightDegrees env.sunrise env.sunset env.now : Int) : ℝ))
            * inv.maxCapacity)) ∧
    -- `updateInverter_night`
    (∀ (env : TickEnv) (inv : SolarInverter) (h : env.now ≤ env.sunrise ∨ env.sunset ≤ env.now),
      (updateInverter env inv).currentPower = 0) ∧
    -- `daylightDegrees_eq_neg90_iff`: The angle is -90 degrees exactly during the first 180th of
    -- daylight.
    (∀ (sunrise sunset now : Int) (h1 : sunrise < now) (h2 : now < sunset),
      daylightDegrees sunrise sunset now = -90 ↔ (now - sunrise) * 180 < sunset - sunrise) ∧
    -- `cos_degrees_pos`
    (∀ (d : Int) (h1 : -89 ≤ d) (h2 : d ≤ 89), 0 < Real.cos (qDegreesToRadians (d : ℝ))) ∧
    -- `cos_degrees_neg90`
    (Real.cos (qDegreesToRadians ((-90 : Int) : ℝ)) = 0) ∧
    -- `cos_degrees_zero`
    (Real.cos (qDegreesToRadians ((0 : Int) : ℝ)) = 1) ∧
    -- `cos_degrees_neg`
    (∀ (d : Int),
      Real.cos (qDegreesToRadians ((-d : Int) : ℝ)) = Real.cos (qDegreesToRadians (d : ℝ))) ∧
    -- `cos_degrees_injective`: On whole degrees from 0 to 90 the cosine takes every value once.
    (∀ (a b : Int) (ha : 0 ≤ a) (ha2 : a ≤ 90) (hb : 0 ≤ b) (hb2 : b ≤ 90)
        (h : Real.cos (qDegreesToRadians (a : ℝ)) = Real.cos (qDegreesToRadians (b : ℝ))),
      a = b) ∧
    -- `updateInverter_settings`
    (∀ (env : TickEnv) (x : SolarInverter),
      ((updateInverter env x).interfaces, (updateInverter env x).phase) = (x.interfaces, x.phase)) := by
  -- `updateInverter_day`
  refine and_of_left ?_ (fun _ => ?_)
  · intro env inv h1 h2
    unfold updateInverter
    simp [h1, h2]
  -- `updateInverter_night`
  refine and_of_left ?_ (fun _ => ?_)
  · intro env inv h
    have : ¬ (env.sunrise < env.now ∧ env.now < env.sunset) := by
      rintro ⟨h1, h2⟩
      rcases h with h | h <;> omega
    unfold updateInverter
    simp [this]
  -- `daylightDegrees_eq_neg90_iff`
  refine and_of_left ?_ (fun _ => ?_)
  · intro sunrise sunset now h1 h2
    rw [daylightDegrees_day sunrise sunset now h1 h2]
    have hL : 0 < sunset - sunrise := by omega
    have hnum : 0 ≤ (now - sunrise) * 180 := by nlinarith
    constructor
    · intro h
      have h0 : (now - sunrise) * 180 / (sunset - sunrise) = 0 := by omega
      have h3 := Int.emod_add_ediv ((now - sunrise) * 180) (sunset - sunrise)
      rw [h0, mul_zero, add_zero] at h3
      rw [← h3]
      exact Int.emod_lt_of_pos _ hL
    · intro h
      rw [Int.ediv_eq_zero_of_lt hnum h]
      rfl
  -- `cos_degrees_pos`
  refine and_of_left ?_ (fun _ => ?_)
  · intro d h1 h2
    apply Real.cos_pos_of_mem_Ioo
    unfold qDegreesToRadians
    have hpi := Real.pi_pos
    have hd1 : (-89 : ℝ) ≤ (d : ℝ) := by exact_mod_cast h1
    have hd2 : (d : ℝ) ≤ 89 := by exact_mod_cast h2
    constructor
    · nlinarith
    · nlinarith
  -- `cos_degrees_neg90`
  refine and_of_left ?_ (fun _ => ?_)
  · unfold qDegreesToRadians
    have : (((-90 : Int) : ℝ)) * (Real.pi / 180) = -(Real.pi / 2) := by
      push_cast
      ring
    rw [this, Real.cos_neg, Real.cos_pi_div_two]
  -- `cos_degrees_zero`
  refine and_of_left ?_ (fun _ => ?_)
  · unfold qDegreesToRadians
    simp
  -- `cos_degrees_neg`
  refine and_of_left ?_ (fun _ => ?_)
  · intro d
    unfold qDegreesToRadians
    push_cast
    rw [neg_mul, Real.cos_neg]
  -- `cos_degrees_injective`
  refine and_of_left ?_ (fun _ => ?_)
  · intro a b ha ha2 hb hb2 h
    have hpi := Real.pi_pos
    have mem : ∀ d : Int, 0 ≤ d → d ≤ 90 → qDegreesToRadians (d : ℝ) ∈ Set.Icc 0 Real.pi := by
      intro d h0 h90
      have hd1 : (0 : ℝ) ≤ (d : ℝ) := by exact_mod_cast h0
      have hd2 : (d : ℝ) ≤ 90 := by exact_mod_cast h90
      unfold qDegreesToRadians
      constructor
      · positivity
      · nlinarith
    have heq := Real.injOn_cos (mem a ha ha2) (mem b hb hb2) h
    unfold qDegreesToRadians at heq
    have hne : Real.pi / 180 ≠ 0 := by positivity
    have := mul_right_cancel₀ hne heq
    exact_mod_cast this
  -- `updateInverter_settings`
  intro env x
  unfold updateInverter
  split <;> rfl

theorem ediv_eq_of_bounds (a L k : Int) (hL : 0 < L) (h1 : L * k ≤ a) (h2 : a < L * (k + 1)) :
    a / L = k := by
  apply le_antisymm
  · have : a / L < k + 1 := Int.ediv_lt_of_lt_mul hL (by linarith [mul_comm L (k + 1)])
    omega
  · exact Int.le_ediv_of_mul_le hL (by linarith [mul_comm L k])

/-- The angle `d` milliseconds after the midpoint `m` of daylight. -/
theorem daylightDegrees_after_midpoint (sunrise sunset m d : Int) (hlt : sunrise < sunset)
    (hmid : 2 * (m - sunrise) = sunset - sunrise) (hd : 0 < d)
    (hd2 : 2 * d < sunset - sunrise) :
    daylightDegrees sunrise sunset (m + d) = 180 * d / (sunset - sunrise) := by
  rw [daylightDegrees_day sunrise sunset (m + d) (by omega) (by omega)]
  have hL : 0 < sunset - sunrise := by omega
  have hq := Int.emod_add_ediv (180 * d) (sunset - sunrise)
  have hr0 := Int.emod_nonneg (180 * d) (ne_of_gt hL)
  have hr1 := Int.emod_lt_of_pos (180 * d) hL
  generalize 180 * d / (sunset - sunrise) = q at *
  generalize 180 * d % (sunset - sunrise) = r at *
  have : (m + d - sunrise) * 180 / (sunset - sunrise) = 90 + q := by
    apply ediv_eq_of_bounds _ _ _ hL
    · have : (sunset - sunrise) * (90 + q) = 90 * (sunset - sunrise) + (sunset - sunrise) * q := by
        ring
      linarith
    · have : (sunset - sunrise) * (90 + q + 1)
          = 90 * (sunset - sunrise) + (sunset - sunrise) * q + (sunset - sunrise) := by ring
      linarith
  omega

/-- The angle `d` milliseconds before the midpoint `m` of daylight: the mirror
image of the angle `d` milliseconds after it when `180 * d` is a multiple of the
length of daylight, one degree below the mirror image otherwise. -/
theorem daylightDegrees_before_midpoint (sunrise sunset m d : Int) (hlt : sunrise < sunset)
    (hmid : 2 * (m - sunrise) = sunset - sunrise) (hd : 0 < d)
    (hd2 : 2 * d < sunset - sunrise) :
    daylightDegrees sunrise sunset (m - d) =
      -(180 * d / (sunset - sunrise)) - (if 180 * d % (sunset - sunrise) = 0 then 0 else 1) := by
  rw [daylightDegrees_day sunrise sunset (m - d) (by omega) (by omega)]
  have hL : 0 < sunset - sunrise := by omega
  have hq := Int.emod_add_ediv (180 * d) (sunset - sunrise)
  have hr0 := Int.emod_nonneg (180 * d) (ne_of_gt hL)
  have hr1 := Int.emod_lt_of_pos (180 * d) hL
  generalize 180 * d / (sunset - sunrise) = q at *
  generalize 180 * d % (sunset - sunrise) = r at *
  by_cases hr : r = 0
  · have : (m - d - sunrise) * 180 / (sunset - sunrise) = 90 - q := by
      apply ediv_eq_of_bounds _ _ _ hL
      · have : (sunset - sunrise) * (90 - q)
            = 90 * (sunset - sunrise) - (sunset - sunrise) * q := by ring
        linarith
      · have : (sunset - sunrise) * (90 - q + 1)
            = 90 * (sunset - sunrise) - (sunset - sunrise) * q + (sunset - sunrise) := by ring
        linarith
    rw [this, if_pos hr]
    omega
  · have : (m - d - sunrise) * 180 / (sunset - sunrise) = 90 - q - 1 := by
      apply ediv_eq_of_bounds _ _ _ hL
      · have : (sunset - sunrise) * (90 - q - 1)
            = 90 * (sunset - sunrise) - (sunset - sunrise) * q - (sunset - sunrise) := by ring
        linarith
      · have : (sunset - sunrise) * (90 - q - 1 + 1)
            = 90 * (sunset - sunrise) - (sunset - sunrise) * q := by ring
        have hrpos : 0 < r := by omega
        linarith
    rw [this, if_neg hr]
    omega

theorem quotient_bounds (L d : Int) (hd : 0 < d) (hd2 : 2 * d < L) :
    0 ≤ 180 * d / L ∧ 180 * d / L ≤ 89 := by
  have hL : 0 < L := by omega
  constructor
  · exact Int.ediv_nonneg (by omega) (le_of_lt hL)
  · have : 180 * d / L < 90 := Int.ediv_lt_of_lt_mul hL (by linarith)
    omega

/-- The smart meter body `updateSmartMeter`. -/
theorem smartMeter_lemmas :
    -- `updateSmartMeter_currentPower`
    (∀ (cons prod : PhaseHash) (m : SmartMeter),
      (updateSmartMeter cons prod m).currentPower = hashTotal cons + hashTotal prod) ∧
    -- `updateSmartMeter_phases`
    (∀ (cons prod : PhaseHash) (m : SmartMeter),
      (updateSmartMeter cons prod m).currentPowerPhaseA = hashValue cons "A" + hashValue prod "A" ∧
        (updateSmartMeter cons prod m).currentPowerPhaseB = hashValue cons "B" + hashValue prod "B" ∧
        (updateSmartMeter cons prod m).currentPowerPhaseC = hashValue cons "C" + hashValue prod "C") ∧
    -- `updateSmartMeter_energy_pos`
    (∀ (cons prod : PhaseHash) (m : SmartMeter) (h : 0 < hashTotal cons + hashTotal prod),
      (updateSmartMeter cons prod m).totalEnergyConsumed
            = m.totalEnergyConsumed + (hashTotal cons + hashTotal prod) / 1000 / 60 / 60 * 5 ∧
          (updateSmartMeter cons prod m).totalEnergyProduced = m.totalEnergyProduced) ∧
    -- `updateSmartMeter_energy_nonpos`
    (∀ (cons prod : PhaseHash) (m : SmartMeter) (h : ¬ 0 < hashTotal cons + hashTotal prod),
      (updateSmartMeter cons prod m).totalEnergyProduced
            = m.totalEnergyProduced - (hashTotal cons + hashTotal prod) / 1000 / 60 / 60 * 5 ∧
          (updateSmartMeter cons prod m).totalEnergyConsumed = m.totalEnergyConsumed) ∧
    -- `updateSmartMeter_monotone`
    (∀ (cons prod : PhaseHash) (m : SmartMeter),
      m.totalEnergyConsumed ≤ (updateSmartMeter cons prod m).totalEnergyConsumed ∧
          m.totalEnergyProduced ≤ (updateSmartMeter cons prod m).totalEnergyProduced) ∧
    -- `executeAction_smartMeters`
    (∀ (a : Action) (s : SimState), (executeAction a s).1.smartMeters = s.smartMeters) := by
  -- `updateSmartMeter_currentPower`
  refine and_of_left ?_ (fun _ => ?_)
  · intro cons prod m
    unfold updateSmartMeter
    simp only []
    split <;> rfl
  -- `updateSmartMeter_phases`
  refine and_of_left ?_ (fun _ => ?_)
  · intro cons prod m
    unfold updateSmartMeter
    simp only []
    split <;> exact ⟨rfl, rfl, rfl⟩
  -- `updateSmartMeter_energy_pos`
  refine and_of_left ?_ (fun updateSmartMeter_energy_pos => ?_)
  · intro cons prod m h
    unfold updateSmartMeter
    simp only []
    rw [if_pos (by exact h)]
    exact ⟨rfl, rfl⟩
  -- `updateSmartMeter_energy_nonpos`
  refine and_of_left ?_ (fun updateSmartMeter_energy_nonpos => ?_)
  · intro cons prod m h
    unfold updateSmartMeter
    simp only []
    rw [if_neg (by exact h)]
    exact ⟨rfl, rfl⟩
  -- `updateSmartMeter_monotone`
  refine and_of_left ?_ (fun _ => ?_)
  · intro cons prod m
    by_cases h : 0 < hashTotal cons + hashTotal prod
    · obtain ⟨h1, h2⟩ := updateSmartMeter_energy_pos cons prod m h
      rw [h1, h2]
      refine ⟨?_, le_refl _⟩
      have : 0 ≤ (hashTotal cons + hashTotal prod) / 1000 / 60 / 60 * 5 := by positivity
      linarith
    · obtain ⟨h1, h2⟩ := updateSmartMeter_energy_nonpos cons prod m h
      rw [h1, h2]
      refine ⟨le_refl _, ?_⟩
      have h0 : hashTotal cons + hashTotal prod ≤ 0 := not_lt.1 h
      have : (hashTotal cons + hashTotal prod) / 1000 / 60 / 60 * 5 ≤ 0 := by
        have : (hashTotal cons + hashTotal prod) / 1000 / 60 / 60 * 5
            = (hashTotal cons + hashTotal prod) * (5 / 3600000) := by ring
        rw [this]
        exact mul_nonpos_of_nonpos_of_nonneg h0 (by norm_num)
      linarith
  -- `executeAction_smartMeters`
  intro a s
  cases a with
  | stovePower t b => rfl
  | wallboxPower t b => rfl
  | wallboxMaxChargingCurrent t v => rfl
  | carPluggedIn t b =>
    cases b with
    | true =>
      simp only [executeAction]
      split <;> rfl
    | false => rfl
  | carMinChargingCurrent t v => rfl
  | other => rfl

/-! ## The consumption by phase -/

theorem map_modifyFirst_eq {α β : Type} (p : α → Bool) (f : α → α) (g : α → β) (l : List α)
    (h : ∀ x, g (f x) = g x) : (modifyFirst p f l).map g = l.map g := by
  induction l with
  | nil => rfl
  | cons x xs ih =>
    unfold modifyFirst
    split
    · simp [h x]
    · simp [ih]

/-- The step of one wallbox, `evChargerStep`, and the loop over the wallboxes,
`updateEvChargers`. -/
theorem evCharger_lemmas :
    -- `evChargerStep_active`: The step of an active wallbox, seen from the car it points to.
    (∀ (now : Int) (w : Wallbox) (cars : List Car) (cid : ThingId) (car : Car)
        (hact : w.pluggedIn = true ∧ w.power = true) (hconn : w.connectedCarThingId = some cid)
        (hfind : findById cars (some cid) = some car),
      findById (evChargerStep now w cars).1 (some cid) = some (chargeCar now w car).1 ∧
          (evChargerStep now w cars).2 = (chargeCar now w car).2) ∧
    -- `evChargerStep_other`: The step of an active wallbox leaves the cars it does not point to.
    (∀ (now : Int) (w : Wallbox) (cars : List Car) (j : ThingId)
        (hconn : w.connectedCarThingId ≠ some j),
      findById (evChargerStep now w cars).1 (some j) = findById cars (some j)) ∧
    -- `evChargerStep_inactive`
    (∀ (now : Int) (w : Wallbox) (cars : List Car) (h : ¬ (w.pluggedIn = true ∧ w.power = true)),
      evChargerStep now w cars = (cars, false)) ∧
    -- `updateEvChargers_inactive`
    (∀ (now : Int) (ws : List Wallbox) (cars : List Car)
        (h : ∀ w ∈ ws, ¬ (w.pluggedIn = true ∧ w.power = true)),
      updateEvChargers now ws cars = cars) ∧
    -- `updateEvChargers_single_active`: When one wallbox only is plugged in and powered, the
    -- loop over the wallboxes is the step of that wallbox.
    (∀ (now : Int) (pre post : List Wallbox) (w : Wallbox) (cars : List Car)
        (hpre : ∀ v ∈ pre, ¬ (v.pluggedIn = true ∧ v.power = true))
        (hpost : ∀ v ∈ post, ¬ (v.pluggedIn = true ∧ v.power = true)),
      updateEvChargers now (pre ++ w :: post) cars = (evChargerStep now w cars).1) ∧
    -- `updateEvChargers_break`
    (∀ (now : Int) (w : Wallbox) (rest : List Wallbox) (cars : List Car)
        (h : (evChargerStep now w cars).2 = true),
      updateEvChargers now (w :: rest) cars = (evChargerStep now w cars).1) ∧
    -- `evChargerStep_settings`
    (∀ (now : Int) (w : Wallbox) (cars : List Car),
      (evChargerStep now w cars).1.map (fun c => (c.interfaces, c.phase))
          = cars.map (fun c => (c.interfaces, c.phase))) ∧
    -- `updateEvChargers_settings`
    (∀ (now : Int) (ws : List Wallbox) (cars : List Car),
      (updateEvChargers now ws cars).map (fun c => (c.interfaces, c.phase))
          = cars.map (fun c => (c.interfaces, c.phase))) ∧
    -- `updateEvChargers_continue`
    (∀ (now : Int) (w : Wallbox) (rest : List Wallbox) (cars : List Car)
        (h : (evChargerStep now w cars).2 = false),
      updateEvChargers now (w :: rest) cars
          = updateEvChargers now rest (evChargerStep now w cars).1) ∧
    -- `updateEvChargers_singleton`
    (∀ (now : Int) (w : Wallbox) (cars : List Car),
      updateEvChargers now [w] cars = (evChargerStep now w cars).1) := by
  obtain ⟨findById_some, -, -, -, -, findById_modifyFirst_same, findById_modifyFirst_other, -⟩ := car_lemmas
  obtain ⟨-, -, -, -, chargeCar_id, -, chargeCar_settings⟩ := chargeCar_lemmas
  -- `evChargerStep_active`
  refine and_of_left ?_ (fun _ => ?_)
  · intro now w cars cid car hact hconn hfind
    have hid : car.id = cid := by
      have := (findById_some hfind).1
      exact (Option.some.inj this).symm
    unfold evChargerStep
    rw [if_pos hact, hconn, hfind]
    refine ⟨?_, rfl⟩
    simp only []
    rw [hid, findById_modifyFirst_same cid _ cars (fun x => chargeCar_id now w x), hfind]
    rfl
  -- `evChargerStep_other`
  refine and_of_left ?_ (fun _ => ?_)
  · intro now w cars j hconn
    unfold evChargerStep
    split
    · split
      · rename_i car hfind
        have h1 := (findById_some hfind).1
        apply findById_modifyFirst_other car.id j _ _ cars (fun x => chargeCar_id now w x)
        intro h
        exact hconn (by rw [h1, h])
      · rfl
    · rfl
  -- `evChargerStep_inactive`
  refine and_of_left ?_ (fun evChargerStep_inactive => ?_)
  · intro now w cars h
    dsimp only [evChargerStep]
    simp [h]
  -- `updateEvChargers_inactive`
  refine and_of_left ?_ (fun updateEvChargers_inactive => ?_)
  · intro now ws cars h
    induction ws with
    | nil => rfl
    | cons w rest ih =>
      unfold updateEvChargers
      rw [evChargerStep_inactive now w cars (h w (List.mem_cons_self _ _))]
      simpa using ih (fun w' hw' => h w' (List.mem_cons_of_mem _ hw'))
  -- `updateEvChargers_single_active`
  refine and_of_left ?_ (fun updateEvChargers_single_active => ?_)
  · intro now pre post w cars hpre hpost
    induction pre with
    | nil =>
      simp only [List.nil_append]
      unfold updateEvChargers
      split
      · rfl
      · exact updateEvChargers_inactive now post _ hpost
    | cons v rest ih =>
      simp only [List.cons_append]
      unfold updateEvChargers
      rw [evChargerStep_inactive now v cars (hpre v (List.mem_cons_self _ _))]
      simpa using ih (fun v' hv' => hpre v' (List.mem_cons_of_mem _ hv'))
  -- `updateEvChargers_break`
  refine and_of_left ?_ (fun _ => ?_)
  · intro now w rest cars h
    unfold updateEvChargers
    rw [if_pos h]
  -- `evChargerStep_settings`
  refine and_of_left ?_ (fun evChargerStep_settings => ?_)
  · intro now w cars
    unfold evChargerStep
    split
    · split
      · exact map_modifyFirst_eq _ _ _ cars (fun x => chargeCar_settings now w x)
      · rfl
    · rfl
  -- `updateEvChargers_settings`
  refine and_of_left ?_ (fun _ => ?_)
  · intro now ws cars
    induction ws generalizing cars with
    | nil => rfl
    | cons w rest ih =>
      unfold updateEvChargers
      split
      · exact evChargerStep_settings now w cars
      · rw [ih, evChargerStep_settings]
  -- `updateEvChargers_continue`
  refine and_of_left ?_ (fun _ => ?_)
  · intro now w rest cars h
    conv_lhs => unfold updateEvChargers
    rw [if_neg (by rw [h]; exact Bool.false_ne_true)]
  -- `updateEvChargers_singleton`
  intro now w cars
  exact updateEvChargers_single_active now [] [] w cars (by simp) (by simp)

/-- A tick seen from one car: a car that is not plugged in, and the car of the
only wallbox that charges. -/
theorem charging_tick_lemmas :
    -- `updateSimulation_unplugged_car`: One tick on a car that is unplugged and that no active
    -- wallbox points to.
    (∀ (env : TickEnv) (s : SimState) (i : Nat) (c : Car) (hc : s.cars[i]? = some c)
        (hfree : ∀ w ∈ s.wallboxes, w.pluggedIn = true → w.power = true → w.connectedCarThingId ≠ some c.id),
      (updateSimulation env s).cars[i]? = some (drainCar c)) ∧
    -- `runTicks_unplugged_car`
    (∀ (s : SimState) (envs : List TickEnv) (i : Nat) (c : Car) (hc : s.cars[i]? = some c)
        (hp : c.pluggedIn = false) (h0 : 0 ≤ c.batteryLevel)
        (hfree : ∀ w ∈ s.wallboxes, w.pluggedIn = true → w.power = true → w.connectedCarThingId ≠ some c.id),
      ∃ c1, (runTicks s envs).cars[i]? = some c1 ∧
          c1.batteryLevel = max (c.batteryLevel - envs.length) 0) ∧
    -- `updateSimulation_pair`: One tick, seen from the car of the only active wallbox.
    (∀ (env : TickEnv) (s : SimState) (pre post : List Wallbox) (w : Wallbox) (cid : ThingId)
        (car : Car) (hw : s.wallboxes = pre ++ w :: post)
        (hpre : ∀ v ∈ pre, ¬ (v.pluggedIn = true ∧ v.power = true))
        (hpost : ∀ v ∈ post, ¬ (v.pluggedIn = true ∧ v.power = true))
        (hact : w.pluggedIn = true ∧ w.power = true) (hconn : w.connectedCarThingId = some cid)
        (hfind : findById s.cars (some cid) = some car),
      findById (updateSimulation env s).cars (some cid) =
          some (drainCar (chargeCar env.now w car).1)) ∧
    -- `updateSimulation_pair_threshold`: The threshold of line 175 for the plugged-in car of the
    -- only active wallbox: below 1 percent the tick leaves the car as it is, from 1 percent on
    -- it adds the rounded percentage to the level and records the time of the tick.
    (∀ (env : TickEnv) (s : SimState) (pre post : List Wallbox) (w : Wallbox) (cid : ThingId)
        (car : Car) (t0 : Int) (hw : s.wallboxes = pre ++ w :: post)
        (hpre : ∀ v ∈ pre, ¬ (v.pluggedIn = true ∧ v.power = true))
        (hpost : ∀ v ∈ post, ¬ (v.pluggedIn = true ∧ v.power = true))
        (hact : w.pluggedIn = true ∧ w.power = true) (hconn : w.connectedCarThingId = some cid)
        (hfind : findById s.cars (some cid) = some car) (hplug : car.pluggedIn = true)
        (h100 : car.batteryLevel < 100) (hl : car.lastChargeUpdateTime = some t0),
      (chargedPercentage env.now w car t0 < 1 →
            findById (updateSimulation env s).cars (some cid) = some car) ∧
          (1 ≤ chargedPercentage env.now w car t0 →
            findById (updateSimulation env s).cars (some cid) =
              some { car with
                lastChargeUpdateTime := some env.now
                batteryLevel := car.batteryLevel + toInt (chargedPercentage env.now w car t0)
                batteryCritical :=
                  decide (car.batteryLevel + toInt (chargedPercentage env.now w car t0) < 10) })) ∧
    -- `runTicks_pair_below`: While the percentage charged since the recorded timestamp stays
    -- below 1, ticks leave the car of the only active wallbox as it is.
    (∀ (s : SimState) (pre post : List Wallbox) (w : Wallbox) (cid : ThingId) (car : Car)
        (t0 : Int) (envs : List TickEnv) (hw : s.wallboxes = pre ++ w :: post)
        (hpre : ∀ v ∈ pre, ¬ (v.pluggedIn = true ∧ v.power = true))
        (hpost : ∀ v ∈ post, ¬ (v.pluggedIn = true ∧ v.power = true))
        (hact : w.pluggedIn = true ∧ w.power = true) (hconn : w.connectedCarThingId = some cid)
        (hfind : findById s.cars (some cid) = some car) (hplug : car.pluggedIn = true)
        (h100 : car.batteryLevel < 100) (hl : car.lastChargeUpdateTime = some t0)
        (hbelow : ∀ e ∈ envs, chargedPercentage e.now w car t0 < 1),
      findById (runTicks s envs).cars (some cid) = some car) ∧
    -- `updateSimulation_small`: A tick 5 seconds after the timestamp of the small car on the
    -- small wallbox: 1.25 percent were charged, the level rises by 1 and the timestamp is reset.
    (∀ (s : SimState) (level t now : Int) (hw : s.wallboxes = [smallWallbox])
        (hfind : findById s.cars (some 2) = some (smallCar level (some t))) (h100 : level < 100)
        (hnow : now - t = 5000),
      findById (updateSimulation (exampleEnv now) s).cars (some 2)
          = some (smallCar (level + 1) (some now))) := by
  obtain ⟨toInt_eq, toInt_int_add, -⟩ := toInt_lemmas
  obtain ⟨updateSimulation_wallboxes, updateSimulation_cars, -, -, -, -, -, -, -,
      runTicks_cons, -⟩ := frame_lemmas
  obtain ⟨-, updateEvChargers_untouched, drainCar_id, drainCar_pluggedIn,
      drainCar_level_unplugged, -, -, findById_map, drainCar_plugged, -⟩ := car_lemmas
  obtain ⟨-, -, chargeCar_wait, chargeCar_commit, -⟩ := chargeCar_lemmas
  obtain ⟨evChargerStep_active, -, -, -, updateEvChargers_single_active, -⟩ := evCharger_lemmas
  -- `updateSimulation_unplugged_car`
  refine and_of_left ?_ (fun updateSimulation_unplugged_car => ?_)
  · intro env s i c hc hfree
    rw [updateSimulation_cars, List.getElem?_map,
      updateEvChargers_untouched env.now s.wallboxes s.cars i c hc hfree]
    rfl
  -- `runTicks_unplugged_car`
  refine and_of_left ?_ (fun _ => ?_)
  · intro s envs i c hc hp h0 hfree
    induction envs generalizing s c with
    | nil => exact ⟨c, hc, by simp [h0]⟩
    | cons e es ih =>
      have h1 := updateSimulation_unplugged_car e s i c hc hfree
      have hl := drainCar_level_unplugged c hp h0
      obtain ⟨c1, hc1, hlev⟩ := ih (updateSimulation e s) (drainCar c) h1
        (by rw [drainCar_pluggedIn, hp]) (by rw [hl]; omega)
        (by rw [updateSimulation_wallboxes, drainCar_id]; exact hfree)
      refine ⟨c1, hc1, ?_⟩
      rw [hlev, hl]
      simp only [List.length_cons, Nat.cast_add, Nat.cast_one]
      omega
  -- `updateSimulation_pair`
  refine and_of_left ?_ (fun updateSimulation_pair => ?_)
  · intro env s pre post w cid car hw hpre hpost hact hconn hfind
    rw [updateSimulation_cars, findById_map drainCar _ _ drainCar_id, hw,
      updateEvChargers_single_active env.now pre post w s.cars hpre hpost,
      (evChargerStep_active env.now w s.cars cid car hact hconn hfind).1]
    rfl
  -- `updateSimulation_pair_threshold`
  refine and_of_left ?_ (fun _ => ?_)
  · intro env s pre post w cid car t0 hw hpre hpost hact hconn hfind hplug h100 hl
    have hpair := updateSimulation_pair env s pre post w cid car hw hpre hpost hact hconn hfind
    constructor
    · intro hcp
      rw [hpair, chargeCar_wait env.now w car t0 h100 hl hcp, drainCar_plugged car hplug]
    · intro hcp
      rw [hpair, chargeCar_commit env.now w car t0 h100 hl hcp]
      simp only []
      rw [drainCar_plugged _ (by exact hplug), toInt_int_add]
  -- `runTicks_pair_below`
  refine and_of_left ?_ (fun _ => ?_)
  · intro s pre post w cid car t0 envs hw hpre hpost hact hconn hfind hplug h100 hl hbelow
    induction envs generalizing s with
    | nil => exact hfind
    | cons e es ih =>
      rw [runTicks_cons]
      apply ih (updateSimulation e s) (by rw [updateSimulation_wallboxes]; exact hw)
      · rw [updateSimulation_pair e s pre post w cid car hw hpre hpost hact hconn hfind,
          chargeCar_wait e.now w car t0 h100 hl (hbelow e (List.mem_cons_self _ _)),
          drainCar_plugged car hplug]
      · exact fun e' he' => hbelow e' (List.mem_cons_of_mem _ he')
  -- `updateSimulation_small`
  intro s level t now hw hfind h100 hnow
  have hcp : chargedPercentage now smallWallbox (smallCar level (some t)) t = 1.25 := by
    dsimp only [chargedPercentage, smallWallbox, smallCar]
    simp [hnow]
    norm_num
  have hint : toInt (1.25 : ℝ) = 1 := by
    apply toInt_eq <;> norm_num
  rw [updateSimulation_pair (exampleEnv now) s [] [] smallWallbox 2 (smallCar level (some t))
    hw (by simp) (by simp) (by dsimp only [smallWallbox]; simp) rfl hfind]
  rw [show (exampleEnv now).now = now from rfl,
    chargeCar_commit now _ _ t h100 rfl (by rw [hcp]; norm_num), hcp]
  simp only []
  rw [drainCar_plugged _ rfl, toInt_int_add, hint]
  rfl

/-- Smart meters through runs, the settings of the things after the device part
of a tick, and the tick of the example household. -/
theorem meter_tick_lemmas :
    -- `run_smartMeters_monotone`
    (∀ (s : SimState) (events : List Event) (i : Nat) (m : SmartMeter)
        (hm : s.smartMeters[i]? = some m),
      ∃ m1, (run s events).smartMeters[i]? = some m1 ∧
          m.totalEnergyConsumed ≤ m1.totalEnergyConsumed ∧
          m.totalEnergyProduced ≤ m1.totalEnergyProduced) ∧
    -- `updateDevices_settings`: The device updates of a tick change neither the interfaces nor
    -- the phase of any thing.
    (∀ (env : TickEnv) (s : SimState),
      (updateDevices env s).myThings.map (fun t => (t.interfaces, t.phase))
          = s.myThings.map (fun t => (t.interfaces, t.phase))) ∧
    -- `updateDevices_consumer_phases`
    (∀ (env : TickEnv) (s : SimState)
        (hc : ∀ t ∈ s.myThings, isConsumer t = true → IsPhase t.phase),
      ∀ t ∈ (updateDevices env s).myThings, isConsumer t = true → IsPhase t.phase) ∧
    -- `updateSimulation_exampleHousehold`: The tick on `exampleHousehold phase` for a phase
    -- string other than A, B, C: the 900 W of the consumer go to a hash key of their own, the
    -- three phases carry the base load of 100 W each and the total is 1200 W.
    (∀ (phase : String) (hA : phase ≠ "A") (hB : phase ≠ "B") (hC : phase ≠ "C"),
      (updateSimulation (exampleEnv 0) (exampleHousehold phase)).smartMeters.map
            (fun m => (m.currentPowerPhaseA, m.currentPowerPhaseB, m.currentPowerPhaseC,
              m.currentPower))
          = [(100, 100, 100, 1200)]) := by
  obtain ⟨-, -, -, -, step_tick, step_action, -, -, -, -, -, -, -, updateSimulation_smartMeters⟩ := frame_lemmas
  obtain ⟨-, -, -, -, -, -, -, -, -, drainCar_settings⟩ := car_lemmas
  obtain ⟨-, -, -, -, -, -, -, updateEvChargers_settings, -⟩ := evCharger_lemmas
  obtain ⟨-, -, -, -, -, -, -, -, -, updateStove_settings, updateStove_exampleConsumer, -⟩ := stove_lemmas
  obtain ⟨-, -, -, -, -, -, -, -, updateInverter_settings⟩ := inverter_lemmas
  obtain ⟨-, -, -, -, updateSmartMeter_monotone, executeAction_smartMeters⟩ := smartMeter_lemmas
  -- `run_smartMeters_monotone`
  refine and_of_left ?_ (fun _ => ?_)
  · intro s events i m hm
    induction events generalizing s m with
    | nil => exact ⟨m, hm, le_refl _, le_refl _⟩
    | cons e es ih =>
      cases e with
      | tick env =>
        have hstep : (step s (Event.tick env)).smartMeters[i]?
            = some (updateSmartMeter (totalPhasesConsumption env (updateDevices env s))
                (totalPhaseProduction (updateDevices env s).inverters) m) := by
          simp only [step_tick]
          rw [updateSimulation_smartMeters, List.getElem?_map, hm]
          rfl
        obtain ⟨m1, h1, h2, h3⟩ := ih (step s (Event.tick env)) _ hstep
        have hmono := updateSmartMeter_monotone (totalPhasesConsumption env (updateDevices env s))
          (totalPhaseProduction (updateDevices env s).inverters) m
        exact ⟨m1, h1, le_trans hmono.1 h2, le_trans hmono.2 h3⟩
      | action a =>
        have hstep : (step s (Event.action a)).smartMeters[i]? = some m := by
          simp only [step_action]
          rw [executeAction_smartMeters, hm]
        exact ih (step s (Event.action a)) m hstep
  -- `updateDevices_settings`
  refine and_of_left ?_ (fun updateDevices_settings => ?_)
  · intro env s
    have hcars := updateEvChargers_settings env.now s.wallboxes s.cars
    dsimp only [SimState.myThings, updateDevices]
    simp only [List.map_append, List.map_map, Function.comp_def]
    have h1 : List.map (fun x => ((updateInverter env x).interfaces, (updateInverter env x).phase))
        s.inverters = List.map (fun x => (x.interfaces, x.phase)) s.inverters :=
      List.map_congr_left (fun x _ => updateInverter_settings env x)
    have h2 : List.map (fun x => ((drainCar x).interfaces, (drainCar x).phase))
        (updateEvChargers env.now s.wallboxes s.cars)
        = List.map (fun x => (x.interfaces, x.phase)) s.cars := by
      rw [← hcars]
      exact List.map_congr_left (fun x _ => drainCar_settings x)
    have h3 : List.map (fun x => ((updateStove x).interfaces, (updateStove x).phase)) s.stoves
        = List.map (fun x => (x.interfaces, x.phase)) s.stoves :=
      List.map_congr_left (fun x _ => updateStove_settings x)
    rw [h1, h2, h3]
  -- `updateDevices_consumer_phases`
  refine and_of_left ?_ (fun _ => ?_)
  · intro env s hc
    intro t ht hcons
    have hmem : (t.interfaces, t.phase)
        ∈ (updateDevices env s).myThings.map (fun t => (t.interfaces, t.phase)) :=
      List.mem_map.2 ⟨t, ht, rfl⟩
    rw [updateDevices_settings] at hmem
    obtain ⟨t0, ht0, heq⟩ := List.mem_map.1 hmem
    simp only [Prod.mk.injEq] at heq
    have h0 := hc t0 ht0 (by
      unfold isConsumer at hcons ⊢
      rw [heq.1]
      exact hcons)
    rw [← heq.2]
    exact h0
  -- `updateSimulation_exampleHousehold`
  intro phase hA hB hC
  have hdev : updateDevices (exampleEnv 0) (exampleHousehold phase)
      = { inverters := [], wallboxes := [], cars := []
          stoves := [{ exampleConsumer phase with
            currentPower := 900
            totalEnergyConsumed := 0 + (900 / 1000) / 60 / 60 * 5
            simulationCycle := 1 }]
          smartMeters := [exampleMeter] } := by
    dsimp only [updateDevices, exampleHousehold]
    simp only [List.map_cons, List.map_nil, updateStove_exampleConsumer, updateEvChargers]
  have hcons : totalPhasesConsumption (exampleEnv 0) (updateDevices (exampleEnv 0)
      (exampleHousehold phase)) = [("A", 100), ("B", 100), ("C", 100), (phase, 900)] := by
    rw [hdev]
    dsimp only [totalPhasesConsumption, SimState.myThings, isConsumer, exampleConsumer,
      exampleMeter, hashAdd, phaseHashInit, exampleEnv]
    simp [hA.symm, hB.symm, hC.symm]
  have hprod : totalPhaseProduction (updateDevices (exampleEnv 0)
      (exampleHousehold phase)).inverters = [("A", 0), ("B", 0), ("C", 0)] := by
    rw [hdev]
    dsimp only [totalPhaseProduction, phaseHashInit]
    simp
  rw [updateSimulation_smartMeters, hcons, hprod]
  simp [exampleHousehold, updateSmartMeter, hashTotal, hashValue, List.find?]
  norm_num

theorem modifyFirst_split {α : Type} (p : α → Bool) (f : α → α) (l : List α)
    (h : ∃ x ∈ l, p x = true) :
    ∃ pre x post, l = pre ++ x :: post ∧ (∀ y ∈ pre, p y = false) ∧ p x = true ∧
      modifyFirst p f l = pre ++ f x :: post := by
  induction l with
  | nil =>
    obtain ⟨x, hx, _⟩ := h
    simp at hx
  | cons a rest ih =>
    by_cases ha : p a = true
    · exact ⟨[], a, rest, rfl, by simp, ha, by simp [modifyFirst, ha]⟩
    · have hrest : ∃ x ∈ rest, p x = true := by
        obtain ⟨x, hx, hpx⟩ := h
        rcases List.mem_cons.1 hx with rfl | hx'
        · exact absurd hpx ha
        · exact ⟨x, hx', hpx⟩
      obtain ⟨pre, x, post, h1, h2, h3, h4⟩ := ih hrest
      refine ⟨a :: pre, x, post, by rw [h1]; rfl, ?_, h3, ?_⟩
      · intro y hy
        rcases List.mem_cons.1 hy with rfl | hy'
        · simpa using ha
        · exact h2 y hy'
      · simp [modifyFirst, ha, h4]

theorem modifyFirst_none {α : Type} (p : α → Bool) (f : α → α) (l : List α)
    (h : ∀ x ∈ l, p x = false) : modifyFirst p f l = l := by
  induction l with
  | nil => rfl
  | cons a rest ih =>
    have ha := h a (List.mem_cons_self _ _)
    simp [modifyFirst, ha, ih (fun x hx => h x (List.mem_cons_of_mem _ hx))]

/-! ## Wrapping into `[0, m)` -/

/-- Wrapping into `[0, m)`, hours and minutes, and the position of an angle
within its quadrant. -/
theorem wrap_lemmas :
    -- `wrapInto_eq_add`
    (∀ (m : Int) (x : ℝ) (hm : 0 < m) (hx : -(m : ℝ) ≤ x),
      wrapInto m x = x + ((1 - (⌊x⌋ + m) / m : Int) : ℝ) * m ∧
          0 ≤ wrapInto m x ∧ wrapInto m x < m) ∧
    -- `eq_of_mem_Ico_of_sub_eq`: Two numbers of `[0, m)` that differ by a multiple of `m` are
    -- equal.
    (∀ (m : Int) (y z : ℝ) (k : Int) (hm : 0 < m) (hy0 : 0 ≤ y) (hy1 : y < m) (hz0 : 0 ≤ z)
        (hz1 : z < m) (h : y = z + (k : ℝ) * m),
      y = z) ∧
    -- `wrapInto_eq`
    (∀ (m : Int) (x : ℝ) (j : Int) (hm : 0 < m) (hx : -(m : ℝ) ≤ x) (h0 : 0 ≤ x + (j : ℝ) * m)
        (h1 : x + (j : ℝ) * m < m),
      wrapInto m x = x + (j : ℝ) * m) ∧
    -- `wrapInto_neg30`
    (wrapInto 24 (-30) = -6) ∧
    -- `minuteOf_range`
    (∀ (y : ℝ), 0 ≤ minuteOf y ∧ minuteOf y ≤ 59) ∧
    -- `hourOf_range`
    (∀ (y : ℝ) (h0 : 0 ≤ y) (h1 : y < 24), 0 ≤ hourOf y ∧ hourOf y ≤ 23) ∧
    -- `toLocalTime_range`
    (∀ (longitude : ℝ) (offset : Int) (t : ℝ)
        (h : -24 ≤ wrapInto 24 (t - longitude / 15) + offset),
      0 ≤ toLocalTime longitude offset t ∧ toLocalTime longitude offset t < 24) ∧
    -- `sameQuadrant_sub`
    (∀ (l ra : ℝ), sameQuadrant l ra - l = 90 * Int.fract (ra / 90) - 90 * Int.fract (l / 90)) ∧
    -- `fract_wrapInto`
    (∀ (y : ℝ) (hy : -360 ≤ y), Int.fract (wrapInto 360 y / 90) = Int.fract (y / 90)) ∧
    -- `wrapIntoRounded_eq`: With `qRound` in the place of `qFloor` the wrapped value is the
    -- right one or one degree above it, up to full turns.
    (∀ (y : ℝ) (hy : -360 ≤ y),
      ∃ k : Int, wrapIntoRounded 360 y = y + (k : ℝ) * 360 ∨
          wrapIntoRounded 360 y = y + 1 + (k : ℝ) * 360) ∧
    -- `fract_add_step`
    (∀ (y : ℝ) (h : 90 * Int.fract (y / 90) < 89),
      90 * Int.fract ((y + 1) / 90) = 90 * Int.fract (y / 90) + 1) ∧
    -- `approxTime_range`
    (∀ (longitude : ℝ) (dayOfYear : Int) (hour : ℝ) (hday : 1 ≤ dayOfYear ∧ dayOfYear ≤ 366)
        (hlon : -180 ≤ longitude ∧ longitude ≤ 180) (hh : 6 ≤ hour ∧ hour ≤ 18),
      0 ≤ approxTime longitude dayOfYear hour ∧ approxTime longitude dayOfYear hour ≤ 368) ∧
    -- `toLocalTime_eq`: A local mean time `t` taken to UTC and to local time is `t` plus the
    -- difference between the offset and the longitude hour, up to whole days, and lies in `[0,
    -- 24)`.
    (∀ (longitude : ℝ) (offset : Int) (t : ℝ) (h1 : -24 ≤ t - longitude / 15) (h2 : -24 ≤ offset),
      ∃ n : Int, toLocalTime longitude offset t
            = t - longitude / 15 + (offset : ℝ) + 24 * (n : ℝ) ∧
          0 ≤ toLocalTime longitude offset t ∧ toLocalTime longitude offset t < 24) ∧
    -- `eq_of_window`: A value of `[0, 24)` that is `z` up to whole days, for `z` in a known
    -- window of one day, is `z` moved into that day.
    (∀ (y z : ℝ) (n m : Int) (hy : y = z + 24 * (n : ℝ)) (hy0 : 0 ≤ y) (hy1 : y < 24)
        (h0 : 0 ≤ z + 24 * (m : ℝ)) (h1 : z + 24 * (m : ℝ) < 24),
      y = z + 24 * (m : ℝ)) ∧
    -- `hourOf_le`
    (∀ (y : ℝ) (b : Int) (h : y < (b : ℝ) + 1), hourOf y ≤ b) ∧
    -- `le_hourOf`
    (∀ (y : ℝ) (b : Int) (h : (b : ℝ) ≤ y), b ≤ hourOf y) := by
  -- `wrapInto_eq_add`
  refine and_of_left ?_ (fun wrapInto_eq_add => ?_)
  · intro m x hm hx
    have hfl : qFloor (x + m) = ⌊x⌋ + m := by
      unfold qFloor
      exact Int.floor_add_int x m
    have hnn : 0 ≤ ⌊x⌋ + m := by
      rw [← hfl]
      unfold qFloor
      exact Int.floor_nonneg.2 (by linarith)
    have hmod : Int.tmod (⌊x⌋ + m) m = (⌊x⌋ + m) % m := Int.tmod_eq_emod hnn (le_of_lt hm)
    have hdiv := Int.emod_add_ediv (⌊x⌋ + m) m
    have h0 := Int.emod_nonneg (⌊x⌋ + m) (ne_of_gt hm)
    have h1 := Int.emod_lt_of_pos (⌊x⌋ + m) hm
    have hfr0 : 0 ≤ x - (⌊x⌋ : ℝ) := by linarith [Int.floor_le x]
    have hfr1 : x - (⌊x⌋ : ℝ) < 1 := by linarith [Int.lt_floor_add_one x]
    have hw : wrapInto m x = (((⌊x⌋ + m) % m : Int) : ℝ) + (x - ⌊x⌋) := by
      unfold wrapInto
      rw [hfl, hmod]
      rfl
    refine ⟨?_, ?_, ?_⟩
    · rw [hw]
      have : (((⌊x⌋ + m) % m : Int) : ℝ) = ((⌊x⌋ + m : Int) : ℝ) - (m : ℝ) * (((⌊x⌋ + m) / m : Int) : ℝ) := by
        have := congrArg (fun z : Int => (z : ℝ)) hdiv
        simp only [Int.cast_add, Int.cast_mul] at this
        push_cast
        linarith
      rw [this]
      push_cast
      ring
    · rw [hw]
      have : (0 : ℝ) ≤ (((⌊x⌋ + m) % m : Int) : ℝ) := by exact_mod_cast h0
      linarith
    · rw [hw]
      have : (((⌊x⌋ + m) % m : Int) : ℝ) ≤ (m : ℝ) - 1 := by
        have : (⌊x⌋ + m) % m ≤ m - 1 := by omega
        exact_mod_cast this
      linarith
  -- `eq_of_mem_Ico_of_sub_eq`
  refine and_of_left ?_ (fun eq_of_mem_Ico_of_sub_eq => ?_)
  · intro m y z k hm hy0 hy1 hz0 hz1 h
    have hmr : (0 : ℝ) < m := by exact_mod_cast hm
    have hk1 : (k : ℝ) < 1 := by
      by_contra hc
      have : (1 : ℝ) ≤ k := not_lt.1 hc
      nlinarith
    have hk2 : (-1 : ℝ) < k := by
      by_contra hc
      have : (k : ℝ) ≤ -1 := not_lt.1 hc
      nlinarith
    have hk : k = 0 := by
      have h1 : k < 1 := by exact_mod_cast hk1
      have h2 : -1 < k := by exact_mod_cast hk2
      omega
    rw [h, hk]
    simp
  -- `wrapInto_eq`
  refine and_of_left ?_ (fun _ => ?_)
  · intro m x j hm hx h0 h1
    obtain ⟨he, hw0, hw1⟩ := wrapInto_eq_add m x hm hx
    apply eq_of_mem_Ico_of_sub_eq m _ _ ((1 - (⌊x⌋ + m) / m) - j) hm hw0 hw1 h0 h1
    rw [he]
    push_cast
    ring
  -- `wrapInto_neg30`
  refine and_of_left ?_ (fun _ => ?_)
  · unfold wrapInto qFloor
    have h1 : ⌊((-30 : ℝ) + ((24 : Int) : ℝ))⌋ = -6 := by
      rw [Int.floor_eq_iff]
      constructor <;> norm_num
    have h2 : ⌊(-30 : ℝ)⌋ = -30 := by
      rw [Int.floor_eq_iff]
      constructor <;> norm_num
    rw [h1, h2, show Int.tmod (-6) 24 = -6 from by decide]
    norm_num
  -- `minuteOf_range`
  refine and_of_left ?_ (fun _ => ?_)
  · intro y
    unfold minuteOf qFloor
    have hfr0 : 0 ≤ y - (⌊y⌋ : ℝ) := by linarith [Int.floor_le y]
    have hfr1 : y - (⌊y⌋ : ℝ) < 1 := by linarith [Int.lt_floor_add_one y]
    constructor
    · exact Int.floor_nonneg.2 (by nlinarith)
    · have : ⌊(y - (⌊y⌋ : ℝ)) * 60⌋ < 60 := by
        rw [Int.floor_lt]
        push_cast
        linarith
      omega
  -- `hourOf_range`
  refine and_of_left ?_ (fun _ => ?_)
  · intro y h0 h1
    unfold hourOf qFloor
    constructor
    · exact Int.floor_nonneg.2 h0
    · have : ⌊y⌋ < 24 := by
        rw [Int.floor_lt]
        push_cast
        exact h1
      omega
  -- `toLocalTime_range`
  refine and_of_left ?_ (fun _ => ?_)
  · intro longitude offset t h
    unfold toLocalTime
    have := wrapInto_eq_add 24 (wrapInto 24 (t - longitude / 15) + offset) (by norm_num)
      (by push_cast; linarith)
    exact ⟨this.2.1, by simpa using this.2.2⟩
  -- `sameQuadrant_sub`
  refine and_of_left ?_ (fun _ => ?_)
  · intro l ra
    unfold sameQuadrant qFloor Int.fract
    push_cast
    ring
  -- `fract_wrapInto`
  refine and_of_left ?_ (fun _ => ?_)
  · intro y hy
    obtain ⟨he, _, _⟩ := wrapInto_eq_add 360 y (by norm_num) (by push_cast; linarith)
    rw [he]
    have : (y + ((1 - (⌊y⌋ + 360) / 360 : Int) : ℝ) * ((360 : Int) : ℝ)) / 90
        = y / 90 + ((4 * (1 - (⌊y⌋ + 360) / 360) : Int) : ℝ) := by
      push_cast; ring
    rw [this, Int.fract_add_int]
  -- `wrapIntoRounded_eq`
  refine and_of_left ?_ (fun _ => ?_)
  · intro y hy
    have hfl : qRound (y + (360 : Int)) = ⌊y + 1 / 2⌋ + 360 := by
      unfold qRound
      have : y + ((360 : Int) : ℝ) + 1 / 2 = (y + 1 / 2) + ((360 : Int) : ℝ) := by ring
      rw [this, Int.floor_add_int]
    have hnn : 0 ≤ ⌊y + 1 / 2⌋ + 360 := by
      have : -360 ≤ ⌊y + 1 / 2⌋ := by
        rw [Int.le_floor]
        push_cast
        linarith
      omega
    have hmod : Int.tmod (⌊y + 1 / 2⌋ + 360) 360 = (⌊y + 1 / 2⌋ + 360) % 360 :=
      Int.tmod_eq_emod hnn (by norm_num)
    have hdiv := Int.emod_add_ediv (⌊y + 1 / 2⌋ + 360) 360
    have hcast : (((⌊y + 1 / 2⌋ + 360) % 360 : Int) : ℝ)
        = (⌊y + 1 / 2⌋ : ℝ) + 360 - 360 * (((⌊y + 1 / 2⌋ + 360) / 360 : Int) : ℝ) := by
      have := congrArg (fun z : Int => (z : ℝ)) hdiv
      simp only [Int.cast_add, Int.cast_mul] at this
      push_cast at this ⊢
      linarith
    have hw : wrapIntoRounded 360 y = y + ((⌊y + 1 / 2⌋ : ℝ) - ⌊y⌋)
        + ((1 - (⌊y + 1 / 2⌋ + 360) / 360 : Int) : ℝ) * 360 := by
      unfold wrapIntoRounded
      rw [hfl, hmod, hcast]
      unfold qFloor
      push_cast
      ring
    have h1 : ⌊y⌋ ≤ ⌊y + 1 / 2⌋ := Int.floor_le_floor (by linarith)
    have h2 : ⌊y + 1 / 2⌋ ≤ ⌊y⌋ + 1 := by
      have : ⌊y + 1 / 2⌋ ≤ ⌊y + 1⌋ := Int.floor_le_floor (by linarith)
      rwa [Int.floor_add_one] at this
    refine ⟨1 - (⌊y + 1 / 2⌋ + 360) / 360, ?_⟩
    rcases (show ⌊y + 1 / 2⌋ = ⌊y⌋ ∨ ⌊y + 1 / 2⌋ = ⌊y⌋ + 1 by omega) with h | h
    · left
      rw [hw, h]
      ring
    · right
      rw [hw, h]
      push_cast
      ring
  -- `fract_add_step`
  refine and_of_left ?_ (fun _ => ?_)
  · intro y h
    have h0 := Int.fract_nonneg (y / 90)
    have : Int.fract ((y + 1) / 90) = Int.fract (y / 90) + 1 / 90 := by
      rw [Int.fract_eq_iff]
      refine ⟨by positivity, by linarith, ⌊y / 90⌋, ?_⟩
      have := Int.floor_add_fract (y / 90)
      linarith
    rw [this]
    ring
  -- `approxTime_range`
  refine and_of_left ?_ (fun _ => ?_)
  · intro longitude dayOfYear hour hday hlon hh
    unfold approxTime
    have h1 : (1 : ℝ) ≤ dayOfYear := by exact_mod_cast hday.1
    have h2 : (dayOfYear : ℝ) ≤ 366 := by exact_mod_cast hday.2
    constructor <;> linarith [hlon.1, hlon.2, hh.1, hh.2]
  -- `toLocalTime_eq`
  refine and_of_left ?_ (fun _ => ?_)
  · intro longitude offset t h1 h2
    obtain ⟨he1, hw0, _⟩ := wrapInto_eq_add 24 (t - longitude / 15) (by norm_num)
      (by push_cast; linarith)
    have hoff : (-24 : ℝ) ≤ offset := by exact_mod_cast h2
    obtain ⟨he2, hv0, hv1⟩ := wrapInto_eq_add 24 (wrapInto 24 (t - longitude / 15) + offset)
      (by norm_num) (by push_cast; linarith)
    unfold toLocalTime
    refine ⟨(1 - (⌊t - longitude / 15⌋ + 24) / 24)
      + (1 - (⌊wrapInto 24 (t - longitude / 15) + offset⌋ + 24) / 24), ?_, hv0, by simpa using hv1⟩
    rw [he2]
    generalize wrapInto 24 (t - longitude / 15) = w at he1 ⊢
    push_cast at he1 ⊢
    linarith
  -- `eq_of_window`
  refine and_of_left ?_ (fun _ => ?_)
  · intro y z n m hy hy0 hy1 h0 h1
    apply eq_of_mem_Ico_of_sub_eq 24 y (z + 24 * (m : ℝ)) (n - m) (by norm_num) hy0
      (by simpa using hy1) h0 (by simpa using h1)
    rw [hy]
    push_cast
    ring
  -- `hourOf_le`
  refine and_of_left ?_ (fun _ => ?_)
  · intro y b h
    unfold hourOf qFloor
    have : ⌊y⌋ < b + 1 := by
      rw [Int.floor_lt]
      push_cast
      exact h
    omega
  -- `le_hourOf`
  intro y b h
  unfold hourOf qFloor
  exact Int.le_floor.2 h

/-! ## The right ascension stays near the true longitude -/

/-- The element at the only position that satisfies `p` is the one
`modifyFirst` replaces. -/
theorem getElem?_modifyFirst_unique {α : Type} (p : α → Bool) (f : α → α) (l : List α)
    (i : Nat) (x : α) (hx : l[i]? = some x) (hp : p x = true)
    (hu : ∀ j y, l[j]? = some y → p y = true → j = i) :
    (modifyFirst p f l)[i]? = some (f x) := by
  induction l generalizing i with
  | nil => simp at hx
  | cons y ys ih =>
    unfold modifyFirst
    cases i with
    | zero =>
      simp only [List.getElem?_cons_zero, Option.some.injEq] at hx
      subst hx
      rw [if_pos hp]
      simp
    | succ k =>
      have hy : p y = false := by
        cases hpy : p y with
        | false => rfl
        | true => exact absurd (hu 0 y (by simp) hpy) (by omega)
      rw [if_neg (by rw [hy]; exact Bool.false_ne_true)]
      simp only [List.getElem?_cons_succ] at hx ⊢
      exact ih k hx (fun j z hz hpz => by
        have := hu (j + 1) z (by simpa using hz) hpz
        omega)

/-! ## Claims -/

/-- C1: in every state reached by ticks and actions from a state in which every
car has `batteryCritical = (batteryLevel < 10)`, every car still has
`batteryCritical = (batteryLevel < 10)`. -/
theorem C1_batteryCritical_invariant (s : SimState) (events : List Event)
    (h : ∀ c ∈ s.cars, c.batteryCritical = decide (c.batteryLevel < 10)) :
    ∀ c ∈ (run s events).cars, c.batteryCritical = decide (c.batteryLevel < 10) := by
  obtain ⟨-, -, -, -, carInvariant_run, criticalOk_invariant, -⟩ := carInvariant_lemmas
  exact carInvariant_run criticalOk_invariant s events h

/-- C1 at a concrete run: a tick, a plug-in action and another tick on
`exampleUnplugged`. -/
theorem C1_batteryCritical_invariant_witness :
    (∀ c ∈ exampleUnplugged.cars, c.batteryCritical = decide (c.batteryLevel < 10)) ∧
      ∀ c ∈ (run exampleUnplugged
          [Event.tick (exampleEnv 0), Event.action (Action.carPluggedIn 2 true),
            Event.tick (exampleEnv 5000)]).cars,
        c.batteryCritical = decide (c.batteryLevel < 10) :=
  ⟨by dsimp only [exampleUnplugged, exampleCar]; simp,
    C1_batteryCritical_invariant exampleUnplugged _ (by dsimp only [exampleUnplugged, exampleCar]; simp)⟩

/-- C2: a car that is not plugged in and that no plugged-in, powered wallbox
points to goes from level `n > 0` to `n - 1` in one tick and stays at `0` when it
is at `0`; after any number of ticks its level is `max (n - ticks) 0`, never
negative. -/
theorem C2_unplugged_drain (env : TickEnv) (s : SimState) (i : Nat) (c : Car)
    (hc : s.cars[i]? = some c) (hp : c.pluggedIn = false)
    (hfree : ∀ w ∈ s.wallboxes,
      w.pluggedIn = true → w.power = true → w.connectedCarThingId ≠ some c.id) :
    (∃ c1, (updateSimulation env s).cars[i]? = some c1 ∧
        (0 < c.batteryLevel → c1.batteryLevel = c.batteryLevel - 1) ∧
        (c.batteryLevel = 0 → c1.batteryLevel = 0)) ∧
      ∀ envs : List TickEnv, 0 ≤ c.batteryLevel →
        ∃ ck, (runTicks s envs).cars[i]? = some ck ∧
          ck.batteryLevel = max (c.batteryLevel - envs.length) 0 ∧ 0 ≤ ck.batteryLevel := by
  obtain ⟨-, -, -, -, drainCar_level_unplugged, -⟩ := car_lemmas
  obtain ⟨updateSimulation_unplugged_car, runTicks_unplugged_car, -⟩ := charging_tick_lemmas
  refine ⟨⟨drainCar c, updateSimulation_unplugged_car env s i c hc hfree, ?_, ?_⟩, ?_⟩
  · intro h
    rw [drainCar_level_unplugged c hp (le_of_lt h)]
    omega
  · intro h
    rw [drainCar_level_unplugged c hp (by omega), h]
    rfl
  · intro envs h0
    obtain ⟨ck, hck, hlev⟩ := runTicks_unplugged_car s envs i c hc hp h0 hfree
    exact ⟨ck, hck, hlev, by rw [hlev]; exact le_max_right _ _⟩

/-- C2 at a concrete state: the unplugged car of `exampleUnplugged` goes from
50 to 49 in one tick. -/
theorem C2_unplugged_drain_witness :
    ∃ c1, (updateSimulation (exampleEnv 0) exampleUnplugged).cars[0]? = some c1 ∧
      c1.batteryLevel = 49 := by
  obtain ⟨c1, h1, h2, _⟩ :=
    (C2_unplugged_drain (exampleEnv 0) exampleUnplugged 0 (exampleCar 2 false 50 none) rfl rfl
      (by dsimp only [exampleUnplugged, exampleWallbox]; simp)).1
  exact ⟨c1, h1, by rw [h2 (by dsimp only [exampleCar]; simp)]; dsimp only [exampleCar]; simp⟩

/-- C3, the code at a failing input: the car of `exampleNearlyFull` is at 99
percent; a tick one hour after its `lastChargeUpdateTime` computes a charged
percentage of 7.36 and leaves the battery level at 106. -/
theorem C3_commit_exceeds_100 :
    (findById exampleNearlyFull.cars (some 2)).map (fun c => c.batteryLevel) = some 99 ∧
      (findById (updateSimulation (exampleEnv 3600000) exampleNearlyFull).cars (some 2)).map
        (fun c => c.batteryLevel) = some 106 := by
  obtain ⟨toInt_eq, -⟩ := toInt_lemmas
  obtain ⟨-, -, -, -, -, -, -, -, drainCar_plugged, -⟩ := car_lemmas
  obtain ⟨-, -, -, chargeCar_commit, -⟩ := chargeCar_lemmas
  obtain ⟨-, -, updateSimulation_pair, -⟩ := charging_tick_lemmas
  refine ⟨rfl, ?_⟩
  have hcp : chargedPercentage 3600000 (exampleWallbox 1 (some 2)) (exampleCar 2 true 99 (some 0)) 0
      = 7.36 := by
    dsimp only [chargedPercentage, exampleWallbox, exampleCar]
    simp
    norm_num
  have hint : toInt (((99 : Int) : ℝ) + 7.36) = 106 := by
    apply toInt_eq <;> norm_num
  rw [updateSimulation_pair (exampleEnv 3600000) exampleNearlyFull [] [] (exampleWallbox 1 (some 2))
    2 (exampleCar 2 true 99 (some 0)) rfl (by simp) (by simp) (by dsimp only [exampleWallbox]; simp) rfl rfl]
  rw [show (exampleEnv 3600000).now = 3600000 from rfl,
    chargeCar_commit 3600000 _ _ 0 (by dsimp only [exampleCar]; simp) rfl (by rw [hcp]; norm_num), hcp]
  rw [drainCar_plugged _ rfl]
  simp only [Option.map_some']
  exact congrArg some hint

/-- C4, the code at a failing input: in `exampleTwoWallboxes` the second
wallbox is powered and plugged in, its car 4 is at 50 percent with a recorded
`lastChargeUpdateTime` and the charged percentage one hour later is 7.36; the
first wallbox meets a car without timestamp and leaves the loop through `break`,
so the tick leaves car 4 at 50 percent with its old timestamp. -/
theorem C4_commit_skipped_after_break :
    chargedPercentage 3600000 (exampleWallbox 2 (some 4)) (exampleCar 4 true 50 (some 0)) 0
        = 7.36 ∧
      findById exampleTwoWallboxes.cars (some 4) = some (exampleCar 4 true 50 (some 0)) ∧
      findById (updateSimulation (exampleEnv 3600000) exampleTwoWallboxes).cars (some 4)
        = some (exampleCar 4 true 50 (some 0)) := by
  obtain ⟨-, updateSimulation_cars, -⟩ := frame_lemmas
  obtain ⟨-, -, drainCar_id, -, -, -, -, findById_map, drainCar_plugged, -⟩ := car_lemmas
  obtain ⟨-, chargeCar_warmup, -⟩ := chargeCar_lemmas
  obtain ⟨evChargerStep_active, evChargerStep_other, -, -, -, updateEvChargers_break, -⟩ := evCharger_lemmas
  refine ⟨?_, rfl, ?_⟩
  · dsimp only [chargedPercentage, exampleWallbox, exampleCar]
    simp
    norm_num
  · have hstep := evChargerStep_active 3600000 (exampleWallbox 1 (some 3))
      exampleTwoWallboxes.cars 3 (exampleCar 3 true 50 none) (by dsimp only [exampleWallbox]; simp) rfl rfl
    have hbreak : (evChargerStep 3600000 (exampleWallbox 1 (some 3))
        exampleTwoWallboxes.cars).2 = true := by
      rw [hstep.2, chargeCar_warmup _ _ _ (by dsimp only [exampleCar]; simp) rfl]
    rw [updateSimulation_cars, findById_map drainCar _ _ drainCar_id]
    rw [show exampleTwoWallboxes.wallboxes
        = [exampleWallbox 1 (some 3), exampleWallbox 2 (some 4)] from rfl,
      show (exampleEnv 3600000).now = 3600000 from rfl,
      updateEvChargers_break _ _ _ _ hbreak,
      evChargerStep_other _ _ _ 4 (by dsimp only [exampleWallbox]; simp)]
    rw [show findById exampleTwoWallboxes.cars (some 4)
        = some (exampleCar 4 true 50 (some 0)) from rfl]
    simp only [Option.map_some']
    rw [drainCar_plugged _ rfl]

/-- C5 as amended: for the car of the only plugged-in, powered wallbox (car
plugged in, below 100 percent, timestamp `t0`), ticks at which the percentage
charged since `t0` is below 1 leave the car as it is, and the first tick at which
that percentage is at least 1 adds it, rounded to the nearest integer, to the
battery level and sets the timestamp to the time of that tick. -/
theorem C5_batching_until_commit (s : SimState) (pre post : List Wallbox) (w : Wallbox)
    (cid : ThingId) (car : Car) (t0 : Int) (envs : List TickEnv) (env : TickEnv)
    (hw : s.wallboxes = pre ++ w :: post)
    (hpre : ∀ v ∈ pre, ¬ (v.pluggedIn = true ∧ v.power = true))
    (hpost : ∀ v ∈ post, ¬ (v.pluggedIn = true ∧ v.power = true))
    (hact : w.pluggedIn = true ∧ w.power = true) (hconn : w.connectedCarThingId = some cid)
    (hfind : findById s.cars (some cid) = some car) (hplug : car.pluggedIn = true)
    (h100 : car.batteryLevel < 100) (hl : car.lastChargeUpdateTime = some t0)
    (hbelow : ∀ e ∈ envs, chargedPercentage e.now w car t0 < 1)
    (hcross : 1 ≤ chargedPercentage env.now w car t0) :
    findById (runTicks s envs).cars (some cid) = some car ∧
      findById (runTicks s (envs ++ [env])).cars (some cid) =
        some { car with
          lastChargeUpdateTime := some env.now
          batteryLevel := car.batteryLevel + toInt (chargedPercentage env.now w car t0)
          batteryCritical :=
            decide (car.batteryLevel + toInt (chargedPercentage env.now w car t0) < 10) } := by
  obtain ⟨-, toInt_int_add, -⟩ := toInt_lemmas
  obtain ⟨-, -, -, -, -, -, -, -, -, -, runTicks_append, runTicks_wallboxes, -⟩ := frame_lemmas
  obtain ⟨-, -, -, -, -, -, -, -, drainCar_plugged, -⟩ := car_lemmas
  obtain ⟨-, -, -, chargeCar_commit, -⟩ := chargeCar_lemmas
  obtain ⟨-, -, updateSimulation_pair, -, runTicks_pair_below, -⟩ := charging_tick_lemmas
  have h1 := runTicks_pair_below s pre post w cid car t0 envs hw hpre hpost hact hconn hfind
    hplug h100 hl hbelow
  refine ⟨h1, ?_⟩
  rw [runTicks_append,
    updateSimulation_pair env (runTicks s envs) pre post w cid car
      (by rw [runTicks_wallboxes]; exact hw) hpre hpost hact hconn h1,
    chargeCar_commit env.now w car t0 h100 hl hcross]
  simp only []
  rw [drainCar_plugged _ (by exact hplug), toInt_int_add]

/-- C5 as amended, at a concrete run: the car of `exampleCharging` stays at 50
percent through the ticks at 5 s and 10 s and is at 51 percent after the tick at
490 s. -/
theorem C5_batching_until_commit_witness :
    (findById (runTicks exampleCharging [exampleEnv 5000, exampleEnv 10000]).cars (some 2)).map
        (fun c => c.batteryLevel) = some 50 ∧
      (findById (runTicks exampleCharging
          ([exampleEnv 5000, exampleEnv 10000] ++ [exampleEnv 490000])).cars (some 2)).map
        (fun c => (c.batteryLevel, c.lastChargeUpdateTime)) = some (51, some 490000) := by
  obtain ⟨toInt_eq, -⟩ := toInt_lemmas
  have hcp : ∀ now : Int, chargedPercentage now (exampleWallbox 1 (some 2))
      (exampleCar 2 true 50 (some 0)) 0 = (now : ℝ) * 46 / 22500000 := by
    intro now
    dsimp only [chargedPercentage, exampleWallbox, exampleCar]
    simp
    ring
  have h := C5_batching_until_commit exampleCharging [] [] (exampleWallbox 1 (some 2)) 2
    (exampleCar 2 true 50 (some 0)) 0 [exampleEnv 5000, exampleEnv 10000] (exampleEnv 490000)
    rfl (by simp) (by simp) (by dsimp only [exampleWallbox]; simp) rfl rfl rfl (by dsimp only [exampleCar]; simp) rfl
    (by
      intro e he
      rw [hcp]
      simp only [List.mem_cons, List.mem_singleton, List.not_mem_nil, or_false] at he
      rcases he with rfl | rfl <;> dsimp only [exampleEnv] <;> norm_num)
    (by rw [hcp]; dsimp only [exampleEnv]; norm_num)
  have hint : toInt (chargedPercentage (exampleEnv 490000).now (exampleWallbox 1 (some 2))
      (exampleCar 2 true 50 (some 0)) 0) = 1 := by
    rw [hcp]
    apply toInt_eq <;> dsimp only [exampleEnv] <;> norm_num
  rw [h.1, h.2, hint]
  exact ⟨rfl, rfl⟩

/-- C5 refuted at a concrete run: the small car (0.23 kWh, 50 percent,
timestamp 0) is charged at 9 A without interruption; the ticks at 5, 10, 15, 20
and 25 seconds find 1.25 percent each, so every one of them adds 1 and resets the
timestamp.  After 25 seconds 6.25 percent were delivered, of integer part 6, and
the level has risen by 5. -/
theorem C5_fraction_discarded :
    chargedPercentage 25000 smallWallbox (smallCar 50 (some 0)) 0 = 6.25 ∧
      ⌊chargedPercentage 25000 smallWallbox (smallCar 50 (some 0)) 0⌋ = 6 ∧
      (findById exampleSmall.cars (some 2)).map (fun c => c.batteryLevel) = some 50 ∧
      (findById (runTicks exampleSmall
          [exampleEnv 5000, exampleEnv 10000, exampleEnv 15000, exampleEnv 20000,
            exampleEnv 25000]).cars
        (some 2)).map (fun c => c.batteryLevel) = some 55 := by
  obtain ⟨-, -, -, -, -, -, -, -, runTicks_nil, runTicks_cons, -⟩ := frame_lemmas
  obtain ⟨-, -, -, -, -, updateSimulation_small⟩ := charging_tick_lemmas
  have hcp : chargedPercentage 25000 smallWallbox (smallCar 50 (some 0)) 0 = 6.25 := by
    dsimp only [chargedPercentage, smallWallbox, smallCar]
    simp
    norm_num
  refine ⟨hcp, ?_, rfl, ?_⟩
  · rw [hcp]
    exact Int.floor_eq_iff.2 ⟨by norm_num, by norm_num⟩
  · have h1 := updateSimulation_small exampleSmall 50 0 5000 rfl rfl (by norm_num) (by norm_num)
    have h2 := updateSimulation_small _ _ 5000 10000 rfl h1 (by norm_num) (by norm_num)
    have h3 := updateSimulation_small _ _ 10000 15000 rfl h2 (by norm_num) (by norm_num)
    have h4 := updateSimulation_small _ _ 15000 20000 rfl h3 (by norm_num) (by norm_num)
    have h5 := updateSimulation_small _ _ 20000 25000 rfl h4 (by norm_num) (by norm_num)
    simp only [runTicks_cons, runTicks_nil]
    rw [h5]
    rfl

/-- C6: for a stove that is switched on and whose counter is `c ≥ 0`, the tick
that follows `n` earlier ticks sets `currentPower` to `maxPowerConsumption` when
`(c + n) mod 12 < 4` and to `0` otherwise, and adds
`(maxPowerConsumption / 1000) / 3600 * 5` to `totalEnergyConsumed` in the first
case and nothing in the second; of any 12 consecutive ticks exactly 4 are of the
first kind. -/
theorem C6_stove_duty_cycle (s : SimState) (i : Nat) (st : Stove) (envs : List TickEnv)
    (env : TickEnv) (hst : s.stoves[i]? = some st) (hpow : st.power = true)
    (hc : 0 ≤ st.simulationCycle) :
    (∃ before after,
        (runTicks s envs).stoves[i]? = some before ∧
        (runTicks s (envs ++ [env])).stoves[i]? = some after ∧
        after.currentPower =
          (if (st.simulationCycle + envs.length) % 12 < 4 then st.maxPowerConsumption else 0) ∧
        after.totalEnergyConsumed = before.totalEnergyConsumed +
          (if (st.simulationCycle + envs.length) % 12 < 4
            then (st.maxPowerConsumption / 1000) / 3600 * 5 else 0)) ∧
      ((List.range 12).filter
        (fun k => decide ((st.simulationCycle + ((envs.length + k : Nat) : Int)) % 12 < 4))).length
        = 4 := by
  obtain ⟨-, -, updateSimulation_stoves, -, -, -, -, -, -, -, runTicks_append, -⟩ := frame_lemmas
  obtain ⟨-, -, -, updateStove_on_currentPower, updateStove_on_totalEnergyConsumed, -,
      iterate_updateStove_on, -⟩ := stove_lemmas
  obtain ⟨runTicks_stoves, -⟩ := stove_run_lemmas
  obtain ⟨h1, h2, _, h4⟩ := iterate_updateStove_on st envs.length hpow hc
  refine ⟨⟨updateStove^[envs.length] st, updateStove (updateStove^[envs.length] st), ?_, ?_, ?_, ?_⟩,
    count_active_positions st.simulationCycle envs.length⟩
  · rw [runTicks_stoves, List.getElem?_map, hst]
    rfl
  · rw [runTicks_append, updateSimulation_stoves, runTicks_stoves, List.getElem?_map,
      List.getElem?_map, hst]
    rfl
  · rw [updateStove_on_currentPower _ h1, h4, h2]
    rfl
  · rw [updateStove_on_totalEnergyConsumed _ h1, h4, h2]
    rfl

/-- C6 at a concrete stove: the stove of `exampleKitchen` (2000 W, counter 0)
draws 2000 W at the first tick and 0 W at the fifth. -/
theorem C6_stove_duty_cycle_witness :
    (∃ after, (runTicks exampleKitchen ([] ++ [exampleEnv 0])).stoves[0]? = some after ∧
        after.currentPower = 2000) ∧
      ∃ after, (runTicks exampleKitchen
          ([exampleEnv 0, exampleEnv 5000, exampleEnv 10000, exampleEnv 15000]
            ++ [exampleEnv 20000])).stoves[0]? = some after ∧ after.currentPower = 0 := by
  constructor
  · obtain ⟨⟨_, after, _, h2, h3, _⟩, _⟩ :=
      C6_stove_duty_cycle exampleKitchen 0 (exampleStove true 0) [] (exampleEnv 0) rfl rfl
        (by dsimp only [exampleStove]; simp)
    exact ⟨after, h2, by rw [h3]; dsimp only [exampleStove]; simp⟩
  · obtain ⟨⟨_, after, _, h2, h3, _⟩, _⟩ :=
      C6_stove_duty_cycle exampleKitchen 0 (exampleStove true 0)
        [exampleEnv 0, exampleEnv 5000, exampleEnv 10000, exampleEnv 15000] (exampleEnv 20000)
        rfl rfl (by dsimp only [exampleStove]; simp)
    exact ⟨after, h2, by rw [h3]; dsimp only [exampleStove]; simp⟩

/-- C7: for a stove with `maxPowerConsumption ≥ 0` whose `currentPower` is `0`,
after any sequence of ticks and actions `currentPower` is `0` or
`maxPowerConsumption`, and a further tick does not lower
`totalEnergyConsumed`. -/
theorem C7_stove_power_values_and_energy_monotone (s : SimState) (i : Nat) (st : Stove)
    (events : List Event) (env : TickEnv) (hst : s.stoves[i]? = some st)
    (hmax : 0 ≤ st.maxPowerConsumption) (h0 : st.currentPower = 0) :
    ∃ st1 st2,
      (run s events).stoves[i]? = some st1 ∧
      (run s (events ++ [Event.tick env])).stoves[i]? = some st2 ∧
      (st1.currentPower = 0 ∨ st1.currentPower = st.maxPowerConsumption) ∧
      st1.totalEnergyConsumed ≤ st2.totalEnergyConsumed := by
  obtain ⟨-, -, updateSimulation_stoves, -, -, -, -, -, -, -, -, -, run_append_tick, -⟩ := frame_lemmas
  obtain ⟨-, -, -, -, -, -, -, -, updateStove_totalEnergyConsumed_le, -⟩ := stove_lemmas
  obtain ⟨-, -, stoveOk_run, -⟩ := stove_run_lemmas
  obtain ⟨st1, h1, hm, hp⟩ :=
    stoveOk_run st.maxPowerConsumption s events i ⟨st, hst, rfl, Or.inl h0⟩
  refine ⟨st1, updateStove st1, h1, ?_, hp, ?_⟩
  · rw [run_append_tick, updateSimulation_stoves, List.getElem?_map, h1]
    rfl
  · exact updateStove_totalEnergyConsumed_le st1 (by rw [hm]; exact hmax)

/-- C7 at a concrete run: the stove of `exampleKitchen` through a tick, a
power-off action and a tick. -/
theorem C7_stove_power_values_and_energy_monotone_witness :
    ∃ st1 st2,
      (run exampleKitchen [Event.tick (exampleEnv 0), Event.action (Action.stovePower 7 false),
        Event.tick (exampleEnv 5000)]).stoves[0]? = some st1 ∧
      (run exampleKitchen ([Event.tick (exampleEnv 0), Event.action (Action.stovePower 7 false),
        Event.tick (exampleEnv 5000)] ++ [Event.tick (exampleEnv 10000)])).stoves[0]? = some st2 ∧
      (st1.currentPower = 0 ∨ st1.currentPower = (exampleStove true 0).maxPowerConsumption) ∧
      st1.totalEnergyConsumed ≤ st2.totalEnergyConsumed :=
  C7_stove_power_values_and_energy_monotone exampleKitchen 0 (exampleStove true 0) _
    (exampleEnv 10000) rfl (by dsimp only [exampleStove]; simp) rfl

/-- C8: when the tick runs exactly at the midpoint between sunrise and sunset,
the current power of every inverter is set to `-maxCapacity`. -/
theorem C8_inverter_peak_at_midpoint (env : TickEnv) (s : SimState) (i : Nat)
    (inv : SolarInverter) (hinv : s.inverters[i]? = some inv) (hlt : env.sunrise < env.sunset)
    (hmid : 2 * (env.now - env.sunrise) = env.sunset - env.sunrise) :
    ∃ inv1, (updateSimulation env s).inverters[i]? = some inv1 ∧
      inv1.currentPower = -inv.maxCapacity := by
  obtain ⟨-, -, -, updateSimulation_inverters, -⟩ := frame_lemmas
  obtain ⟨updateInverter_day, -, -, -, -, cos_degrees_zero, -⟩ := inverter_lemmas
  refine ⟨updateInverter env inv, ?_, ?_⟩
  · rw [updateSimulation_inverters, List.getElem?_map, hinv]
    rfl
  · have h1 : env.sunrise < env.now := by omega
    have h2 : env.now < env.sunset := by omega
    have hdeg : daylightDegrees env.sunrise env.sunset env.now = 0 := by
      rw [daylightDegrees_day _ _ _ h1 h2]
      have : (env.now - env.sunrise) * 180 / (env.sunset - env.sunrise) = 90 := by
        apply ediv_eq_of_bounds _ _ _ (by omega) <;> linarith
      omega
    rw [updateInverter_day env inv h1 h2, hdeg, cos_degrees_zero, one_mul]

/-- C8 at a concrete tick: sunrise at 06:00, sunset at 18:00, the tick at 12:00,
an inverter of 1000 W. -/
theorem C8_inverter_peak_at_midpoint_witness :
    ∃ inv1 : SolarInverter,
      (updateSimulation (exampleEnv 43200000) exampleRoof).inverters[0]? = some inv1 ∧
      inv1.currentPower = (-1000 : ℝ) := by
  obtain ⟨inv1, h1, h2⟩ :=
    C8_inverter_peak_at_midpoint (exampleEnv 43200000) exampleRoof 0 exampleInverter rfl
      (by decide) (by decide)
  exact ⟨inv1, h1, by rw [h2]; rfl⟩

/-- C10 refuted at a concrete pair of ticks: with sunrise at 06:00 and sunset
at 18:00 the midpoint is 12:00; one minute before it the angle is -1 degree, one
minute after it the angle is 0 degrees, and the inverter of 1000 W is set to
different values at the two ticks. -/
theorem C10_asymmetric_around_midpoint :
    2 * ((43200000 : Int) - (exampleEnv 43140000).sunrise)
        = (exampleEnv 43140000).sunset - (exampleEnv 43140000).sunrise ∧
      (exampleEnv 43140000).now = 43200000 - 60000 ∧
      (exampleEnv 43260000).now = 43200000 + 60000 ∧
      daylightDegrees 21600000 64800000 43140000 = -1 ∧
      daylightDegrees 21600000 64800000 43260000 = 0 ∧
      (updateSimulation (exampleEnv 43140000) exampleRoof).inverters.map
          (fun inv => inv.currentPower)
        ≠ (updateSimulation (exampleEnv 43260000) exampleRoof).inverters.map
          (fun inv => inv.currentPower) := by
  obtain ⟨-, -, -, updateSimulation_inverters, -⟩ := frame_lemmas
  obtain ⟨updateInverter_day, -, -, -, -, -, cos_degrees_neg, cos_degrees_injective, -⟩ := inverter_lemmas
  refine ⟨by decide, by decide, by decide, by decide, by decide, ?_⟩
  rw [updateSimulation_inverters, updateSimulation_inverters]
  dsimp only [exampleRoof]
  simp only [List.map_cons, List.map_nil]
  rw [updateInverter_day _ _ (by decide) (by decide),
    updateInverter_day _ _ (by decide) (by decide)]
  rw [show daylightDegrees (exampleEnv 43140000).sunrise (exampleEnv 43140000).sunset
      (exampleEnv 43140000).now = -(1 : Int) from by decide,
    show daylightDegrees (exampleEnv 43260000).sunrise (exampleEnv 43260000).sunset
      (exampleEnv 43260000).now = 0 from by decide, cos_degrees_neg]
  intro h
  have h1 : Real.cos (qDegreesToRadians ((1 : Int) : ℝ)) * exampleInverter.maxCapacity
      = Real.cos (qDegreesToRadians ((0 : Int) : ℝ)) * exampleInverter.maxCapacity := by
    have := List.head_eq_of_cons_eq h
    linarith
  have hcap : exampleInverter.maxCapacity ≠ 0 := by dsimp only [exampleInverter]; norm_num
  have h2 := mul_right_cancel₀ hcap h1
  have := cos_degrees_injective 1 0 (by decide) (by decide) (by decide) (by decide) h2
  omega

/-- C10 as amended: let `m` be the midpoint of daylight and `0 < d` below half
the length of daylight.  When `180 * d` is a multiple of the length of daylight,
the current power set by a tick at `m - d` equals the one set by a tick at
`m + d`; for an inverter with `maxCapacity ≠ 0` it does so for no other `d`. -/
theorem C10_inverter_symmetry (e1 e2 : TickEnv) (s : SimState) (i : Nat) (inv : SolarInverter)
    (m d : Int) (hinv : s.inverters[i]? = some inv) (hsr : e2.sunrise = e1.sunrise)
    (hss : e2.sunset = e1.sunset) (hlt : e1.sunrise < e1.sunset)
    (hmid : 2 * (m - e1.sunrise) = e1.sunset - e1.sunrise) (hd : 0 < d)
    (hd2 : 2 * d < e1.sunset - e1.sunrise) (h1 : e1.now = m - d) (h2 : e2.now = m + d) :
    ∃ p1 p2 : SolarInverter,
      (updateSimulation e1 s).inverters[i]? = some p1 ∧
      (updateSimulation e2 s).inverters[i]? = some p2 ∧
      ((e1.sunset - e1.sunrise) ∣ 180 * d → p1.currentPower = p2.currentPower) ∧
      (inv.maxCapacity ≠ 0 → p1.currentPower = p2.currentPower →
        (e1.sunset - e1.sunrise) ∣ 180 * d) := by
  obtain ⟨-, -, -, updateSimulation_inverters, -⟩ := frame_lemmas
  obtain ⟨updateInverter_day, -, -, -, -, -, cos_degrees_neg, cos_degrees_injective, -⟩ := inverter_lemmas
  have hq := quotient_bounds (e1.sunset - e1.sunrise) d hd hd2
  have hp1 : (updateInverter e1 inv).currentPower
      = -(Real.cos (qDegreesToRadians (((-(180 * d / (e1.sunset - e1.sunrise))
          - (if 180 * d % (e1.sunset - e1.sunrise) = 0 then 0 else 1) : Int)) : ℝ))
        * inv.maxCapacity) := by
    rw [updateInverter_day e1 inv (by omega) (by omega), h1,
      daylightDegrees_before_midpoint _ _ m d hlt hmid hd hd2]
  have hp2 : (updateInverter e2 inv).currentPower
      = -(Real.cos (qDegreesToRadians (((180 * d / (e1.sunset - e1.sunrise) : Int)) : ℝ))
        * inv.maxCapacity) := by
    rw [updateInverter_day e2 inv (by omega) (by omega), h2, hsr, hss,
      daylightDegrees_after_midpoint _ _ m d hlt hmid hd hd2]
  refine ⟨updateInverter e1 inv, updateInverter e2 inv, ?_, ?_, ?_, ?_⟩
  · rw [updateSimulation_inverters, List.getElem?_map, hinv]
    rfl
  · rw [updateSimulation_inverters, List.getElem?_map, hinv]
    rfl
  · intro hdvd
    rw [hp1, hp2, if_pos (Int.emod_eq_zero_of_dvd hdvd), sub_zero, cos_degrees_neg]
  · intro hcap heq
    by_contra hndvd
    have hr : ¬ 180 * d % (e1.sunset - e1.sunrise) = 0 :=
      fun h => hndvd (Int.dvd_of_emod_eq_zero h)
    rw [hp1, hp2, if_neg hr] at heq
    have hneg : -(180 * d / (e1.sunset - e1.sunrise)) - 1
        = -(180 * d / (e1.sunset - e1.sunrise) + 1) := by ring
    rw [hneg, cos_degrees_neg] at heq
    have h3 := mul_right_cancel₀ hcap (neg_injective heq)
    have := cos_degrees_injective _ _ (by omega) (by omega) hq.1 (by omega) h3
    omega

/-- C10 as amended, at a concrete pair of ticks: one hour (15 degree steps)
before and after 12:00 the inverter of 1000 W is set to the same value. -/
theorem C10_inverter_symmetry_witness :
    ∃ p1 p2 : SolarInverter,
      (updateSimulation (exampleEnv 39600000) exampleRoof).inverters[0]? = some p1 ∧
      (updateSimulation (exampleEnv 46800000) exampleRoof).inverters[0]? = some p2 ∧
      p1.currentPower = p2.currentPower := by
  obtain ⟨p1, p2, h1, h2, h3, _⟩ :=
    C10_inverter_symmetry (exampleEnv 39600000) (exampleEnv 46800000) exampleRoof 0
      exampleInverter 43200000 3600000 rfl rfl rfl (by decide) (by decide) (by decide)
      (by decide) (by decide) (by decide)
  exact ⟨p1, p2, h1, h2, h3 (by decide)⟩

/-- C12, the code at a failing input: a consumer (class with the interface
`smartmeterconsumer`, not `energymeter`) on phase "All" draws 900 W.  The tick
publishes 100 W, the base load, on each of the phases A, B and C, not 400 W: the
900 W are booked under the hash key "All" and appear in the total of 1200 W
only. -/
theorem C12_consumer_on_all_phases_not_split :
    isConsumer (exampleConsumer "All").toThing = true ∧
      (updateSimulation (exampleEnv 0) (exampleHousehold "All")).stoves.map
          (fun t => (t.phase, t.currentPower)) = [("All", 900)] ∧
      (updateSimulation (exampleEnv 0) (exampleHousehold "All")).smartMeters.map
          (fun m => (m.currentPowerPhaseA, m.currentPowerPhaseB, m.currentPowerPhaseC,
            m.currentPower))
        = [(100, 100, 100, 1200)] := by
  obtain ⟨-, -, updateSimulation_stoves, -⟩ := frame_lemmas
  obtain ⟨-, -, -, -, -, -, -, -, -, -, updateStove_exampleConsumer, -⟩ := stove_lemmas
  obtain ⟨-, -, -, updateSimulation_exampleHousehold⟩ := meter_tick_lemmas
  refine ⟨by decide, ?_, updateSimulation_exampleHousehold "All" (by decide) (by decide)
    (by decide)⟩
  rw [updateSimulation_stoves]
  dsimp only [exampleHousehold]
  simp only [List.map_cons, List.map_nil, updateStove_exampleConsumer]
  rfl

/-- C13: no sequence of ticks and actions, and so no tick, lowers
`totalEnergyConsumed` or `totalEnergyProduced` of a smart meter. -/
theorem C13_meter_counters_monotone (s : SimState) (events : List Event) (env : TickEnv)
    (i : Nat) (m : SmartMeter) (hm : s.smartMeters[i]? = some m) :
    (∃ m1, (updateSimulation env s).smartMeters[i]? = some m1 ∧
        m.totalEnergyConsumed ≤ m1.totalEnergyConsumed ∧
        m.totalEnergyProduced ≤ m1.totalEnergyProduced) ∧
      ∃ mk, (run s events).smartMeters[i]? = some mk ∧
        m.totalEnergyConsumed ≤ mk.totalEnergyConsumed ∧
        m.totalEnergyProduced ≤ mk.totalEnergyProduced := by
  obtain ⟨run_smartMeters_monotone, -⟩ := meter_tick_lemmas
  refine ⟨?_, run_smartMeters_monotone s events i m hm⟩
  have h := run_smartMeters_monotone s [Event.tick env] i m hm
  exact h

/-- C13 at a concrete state: the meter of `exampleHousehold "A"` through one
tick and through two ticks. -/
theorem C13_meter_counters_monotone_witness :
    (∃ m1, (updateSimulation (exampleEnv 0) (exampleHousehold "A")).smartMeters[0]? = some m1 ∧
        exampleMeter.totalEnergyConsumed ≤ m1.totalEnergyConsumed ∧
        exampleMeter.totalEnergyProduced ≤ m1.totalEnergyProduced) ∧
      ∃ mk, (run (exampleHousehold "A")
          [Event.tick (exampleEnv 0), Event.tick (exampleEnv 5000)]).smartMeters[0]? = some mk ∧
        exampleMeter.totalEnergyConsumed ≤ mk.totalEnergyConsumed ∧
        exampleMeter.totalEnergyProduced ≤ mk.totalEnergyProduced :=
  C13_meter_counters_monotone (exampleHousehold "A") _ (exampleEnv 0) 0 exampleMeter rfl

/-- C14: let `T` be the total power a tick publishes as `currentPower` of a smart
meter and `delta = T / 1000 * (5 / 3600)`.  If `T > 0` the tick adds `delta` to
`totalEnergyConsumed` and leaves `totalEnergyProduced`; otherwise it subtracts
`delta` from `totalEnergyProduced` and leaves `totalEnergyConsumed`. -/
theorem C14_meter_energy_update (env : TickEnv) (s : SimState) (i : Nat) (m : SmartMeter)
    (hm : s.smartMeters[i]? = some m) :
    ∃ m1, (updateSimulation env s).smartMeters[i]? = some m1 ∧
      m1.currentPower = hashTotal (totalPhasesConsumption env (updateDevices env s))
        + hashTotal (totalPhaseProduction (updateDevices env s).inverters) ∧
      (0 < m1.currentPower →
        m1.totalEnergyConsumed = m.totalEnergyConsumed + m1.currentPower / 1000 * (5 / 3600) ∧
        m1.totalEnergyProduced = m.totalEnergyProduced) ∧
      (¬ 0 < m1.currentPower →
        m1.totalEnergyProduced = m.totalEnergyProduced - m1.currentPower / 1000 * (5 / 3600) ∧
        m1.totalEnergyConsumed = m.totalEnergyConsumed) := by
  obtain ⟨-, -, -, -, -, -, -, -, -, -, -, -, -, updateSimulation_smartMeters⟩ := frame_lemmas
  obtain ⟨updateSmartMeter_currentPower, -, updateSmartMeter_energy_pos,
      updateSmartMeter_energy_nonpos, -⟩ := smartMeter_lemmas
  refine ⟨updateSmartMeter (totalPhasesConsumption env (updateDevices env s))
    (totalPhaseProduction (updateDevices env s).inverters) m, ?_, ?_, ?_, ?_⟩
  · rw [updateSimulation_smartMeters, List.getElem?_map, hm]
    rfl
  · exact updateSmartMeter_currentPower _ _ m
  · intro h
    rw [updateSmartMeter_currentPower] at h ⊢
    obtain ⟨h1, h2⟩ := updateSmartMeter_energy_pos _ _ m h
    rw [h1, h2]
    exact ⟨by ring, rfl⟩
  · intro h
    rw [updateSmartMeter_currentPower] at h ⊢
    obtain ⟨h1, h2⟩ := updateSmartMeter_energy_nonpos _ _ m h
    rw [h1, h2]
    exact ⟨by ring, rfl⟩

/-- C14 at a concrete state: the meter of `exampleHousehold "A"` after one
tick. -/
theorem C14_meter_energy_update_witness :
    ∃ m1, (updateSimulation (exampleEnv 0) (exampleHousehold "A")).smartMeters[0]? = some m1 ∧
      (0 < m1.currentPower →
        m1.totalEnergyConsumed
          = exampleMeter.totalEnergyConsumed + m1.currentPower / 1000 * (5 / 3600) ∧
        m1.totalEnergyProduced = exampleMeter.totalEnergyProduced) := by
  obtain ⟨m1, h1, _, h3, _⟩ :=
    C14_meter_energy_update (exampleEnv 0) (exampleHousehold "A") 0 exampleMeter rfl
  exact ⟨m1, h1, h3⟩

/-- C15, the code at a failing input: `exampleGarage` has two free wallboxes and
the unplugged car 3.  After two plug-in actions on car 3 both wallboxes have car 3
as `connectedCarThingId`; after the unplug action that follows, car 3 is not
plugged in and the second wallbox still has it as `connectedCarThingId`. -/
theorem C15_car_on_two_wallboxes :
    exampleGarage.wallboxes.map (fun w => w.connectedCarThingId) = [none, none] ∧
      exampleGarage.cars.map (fun c => (c.id, c.pluggedIn)) = [(3, false)] ∧
      (run exampleGarage [Event.action (Action.carPluggedIn 3 true),
          Event.action (Action.carPluggedIn 3 true)]).wallboxes.map
        (fun w => w.connectedCarThingId) = [some 3, some 3] ∧
      (run exampleGarage [Event.action (Action.carPluggedIn 3 true),
          Event.action (Action.carPluggedIn 3 true),
          Event.action (Action.carPluggedIn 3 false)]).wallboxes.map
        (fun w => (w.connectedCarThingId, w.pluggedIn)) = [(none, false), (some 3, true)] ∧
      (run exampleGarage [Event.action (Action.carPluggedIn 3 true),
          Event.action (Action.carPluggedIn 3 true),
          Event.action (Action.carPluggedIn 3 false)]).cars.map
        (fun c => (c.id, c.pluggedIn)) = [(3, false)] := by
  obtain ⟨-, -, -, -, -, step_action, run_nil, run_cons, -⟩ := frame_lemmas
  refine ⟨rfl, rfl, ?_, ?_, ?_⟩ <;>
    dsimp only [exampleGarage, exampleWallbox, exampleCar] <;>
      simp [run_cons, run_nil, step_action, executeAction, modifyFirst]

/-- C16: the plug-in action on a car finishes with `ThingErrorHardwareNotAvailable`
exactly when no wallbox has an empty `connectedCarThingId`, and then the state is
unchanged; otherwise it finishes with `ThingErrorNoError`, the first wallbox with
an empty `connectedCarThingId`, and no other, gets the car as
`connectedCarThingId` and `pluggedIn = true`, the car gets `pluggedIn = true`,
and nothing else changes. -/
theorem C16_plug_in_action (thing : ThingId) (s : SimState) :
    ((executeAction (Action.carPluggedIn thing true) s).2
          = ThingError.ThingErrorHardwareNotAvailable ↔
        ∀ w ∈ s.wallboxes, w.connectedCarThingId ≠ none) ∧
      ((∀ w ∈ s.wallboxes, w.connectedCarThingId ≠ none) →
        (executeAction (Action.carPluggedIn thing true) s).1 = s) ∧
      ((∃ w ∈ s.wallboxes, w.connectedCarThingId = none) →
        (executeAction (Action.carPluggedIn thing true) s).2 = ThingError.ThingErrorNoError ∧
        (∃ pre w post, s.wallboxes = pre ++ w :: post ∧
          (∀ v ∈ pre, v.connectedCarThingId ≠ none) ∧ w.connectedCarThingId = none ∧
          (executeAction (Action.carPluggedIn thing true) s).1.wallboxes
            = pre ++ { w with connectedCarThingId := some thing, pluggedIn := true } :: post) ∧
        findById (executeAction (Action.carPluggedIn thing true) s).1.cars (some thing)
          = (findById s.cars (some thing)).map (fun c => { c with pluggedIn := true }) ∧
        (∀ j, j ≠ thing →
          findById (executeAction (Action.carPluggedIn thing true) s).1.cars (some j)
            = findById s.cars (some j)) ∧
        (executeAction (Action.carPluggedIn thing true) s).1.inverters = s.inverters ∧
        (executeAction (Action.carPluggedIn thing true) s).1.stoves = s.stoves ∧
        (executeAction (Action.carPluggedIn thing true) s).1.smartMeters = s.smartMeters) := by
  obtain ⟨-, -, -, -, -, findById_modifyFirst_same, findById_modifyFirst_other, -⟩ := car_lemmas
  have hany : s.wallboxes.any (fun w => w.connectedCarThingId.isNone) = true ↔
      ∃ w ∈ s.wallboxes, w.connectedCarThingId = none := by
    simp [List.any_eq_true, Option.isNone_iff_eq_none]
  have hnone : (¬ ∃ w ∈ s.wallboxes, w.connectedCarThingId = none) ↔
      ∀ w ∈ s.wallboxes, w.connectedCarThingId ≠ none := by
    simp
  refine ⟨?_, ?_, ?_⟩
  · rw [← hnone, ← hany]
    simp only [executeAction]
    split <;> simp_all
  · intro h
    have : ¬ s.wallboxes.any (fun w => w.connectedCarThingId.isNone) = true := by
      rw [hany, hnone]
      exact h
    simp only [executeAction, this]
    rfl
  · intro h
    have hfree := hany.2 h
    have heq : executeAction (Action.carPluggedIn thing true) s
        = ({ s with
              wallboxes :=
                modifyFirst (fun w => w.connectedCarThingId.isNone)
                  (fun w => { w with connectedCarThingId := some thing, pluggedIn := true })
                  s.wallboxes
              cars :=
                modifyFirst (fun t => t.id == thing) (fun t => { t with pluggedIn := true })
                  s.cars },
            ThingError.ThingErrorNoError) := by
      simp only [executeAction, hfree, if_true]
    rw [heq]
    refine ⟨rfl, ?_, ?_, ?_, rfl, rfl, rfl⟩
    · obtain ⟨pre, w, post, h1, h2, h3, h4⟩ :=
        modifyFirst_split (fun w : Wallbox => w.connectedCarThingId.isNone)
          (fun w => { w with connectedCarThingId := some thing, pluggedIn := true })
          s.wallboxes (by
            obtain ⟨w, hw, hw0⟩ := h
            exact ⟨w, hw, by simp [hw0]⟩)
      refine ⟨pre, w, post, h1, ?_, by simpa [Option.isNone_iff_eq_none] using h3, h4⟩
      intro v hv hv0
      have := h2 v hv
      simp [hv0] at this
    · exact findById_modifyFirst_same thing _ s.cars (fun _ => rfl)
    · intro j hj
      exact findById_modifyFirst_other thing j (fun h' => hj h'.symm) _ s.cars (fun _ => rfl)

/-- C18, the code at a failing input: two wallboxes that are powered and plugged
in, car 4 on the second one at 50 percent with timestamp 0, the tick one hour
later.  When car 3 on the first wallbox has a timestamp, the tick takes car 4 to
57 percent and sets its timestamp to the time of the tick; when car 3 has none,
the `break` of line 161 ends the loop and car 4 keeps 50 percent and its old
timestamp. -/
theorem C18_later_wallbox_depends_on_earlier_car :
    (findById (updateSimulation (exampleEnv 3600000) exampleTwoWallboxesWarm).cars
        (some 4)).map (fun c => (c.batteryLevel, c.lastChargeUpdateTime))
        = some (57, some 3600000) ∧
      (findById (updateSimulation (exampleEnv 3600000) exampleTwoWallboxes).cars
        (some 4)).map (fun c => (c.batteryLevel, c.lastChargeUpdateTime))
        = some (50, some 0) := by
  obtain ⟨toInt_eq, -⟩ := toInt_lemmas
  obtain ⟨-, updateSimulation_cars, -⟩ := frame_lemmas
  obtain ⟨-, -, drainCar_id, -, -, -, -, findById_map, drainCar_plugged, -⟩ := car_lemmas
  obtain ⟨-, chargeCar_warmup, -, chargeCar_commit, -⟩ := chargeCar_lemmas
  obtain ⟨evChargerStep_active, evChargerStep_other, -, -, -, updateEvChargers_break, -, -,
      updateEvChargers_continue, updateEvChargers_singleton⟩ := evCharger_lemmas
  have hcp : ∀ i : ThingId, chargedPercentage 3600000 (exampleWallbox i (some (i + 2)))
      (exampleCar (i + 2) true 50 (some 0)) 0 = 7.36 := by
    intro i
    dsimp only [chargedPercentage, exampleWallbox, exampleCar]
    simp
    norm_num
  constructor
  · have hstep1 := evChargerStep_active 3600000 (exampleWallbox 1 (some 3))
      exampleTwoWallboxesWarm.cars 3 (exampleCar 3 true 50 (some 0)) (by dsimp only [exampleWallbox]; simp)
      rfl rfl
    have hcont : (evChargerStep 3600000 (exampleWallbox 1 (some 3))
        exampleTwoWallboxesWarm.cars).2 = false := by
      rw [hstep1.2, chargeCar_commit _ _ _ 0 (by dsimp only [exampleCar]; simp) rfl
        (by rw [hcp 1]; norm_num)]
    have hfind4 : findById (evChargerStep 3600000 (exampleWallbox 1 (some 3))
        exampleTwoWallboxesWarm.cars).1 (some 4) = some (exampleCar 4 true 50 (some 0)) := by
      rw [evChargerStep_other _ _ _ 4 (by dsimp only [exampleWallbox]; simp)]
      rfl
    have hstep2 := evChargerStep_active 3600000 (exampleWallbox 2 (some 4))
      (evChargerStep 3600000 (exampleWallbox 1 (some 3)) exampleTwoWallboxesWarm.cars).1 4
      (exampleCar 4 true 50 (some 0)) (by dsimp only [exampleWallbox]; simp) rfl hfind4
    have hint : toInt (((50 : Int) : ℝ) + 7.36) = 57 := by
      apply toInt_eq <;> norm_num
    rw [updateSimulation_cars, findById_map drainCar _ _ drainCar_id]
    rw [show exampleTwoWallboxesWarm.wallboxes
        = [exampleWallbox 1 (some 3), exampleWallbox 2 (some 4)] from rfl,
      show (exampleEnv 3600000).now = 3600000 from rfl,
      updateEvChargers_continue _ _ _ _ hcont,
      updateEvChargers_singleton,
      hstep2.1, chargeCar_commit _ _ _ 0 (by dsimp only [exampleCar]; simp) rfl (by rw [hcp 2]; norm_num),
      hcp 2]
    simp only [Option.map_some']
    rw [drainCar_plugged _ rfl]
    simp only [Option.some.injEq, Prod.mk.injEq, and_true]
    exact hint
  · have hstep := evChargerStep_active 3600000 (exampleWallbox 1 (some 3))
      exampleTwoWallboxes.cars 3 (exampleCar 3 true 50 none) (by dsimp only [exampleWallbox]; simp) rfl rfl
    have hbreak : (evChargerStep 3600000 (exampleWallbox 1 (some 3))
        exampleTwoWallboxes.cars).2 = true := by
      rw [hstep.2, chargeCar_warmup _ _ _ (by dsimp only [exampleCar]; simp) rfl]
    rw [updateSimulation_cars, findById_map drainCar _ _ drainCar_id]
    rw [show exampleTwoWallboxes.wallboxes
        = [exampleWallbox 1 (some 3), exampleWallbox 2 (some 4)] from rfl,
      show (exampleEnv 3600000).now = 3600000 from rfl,
      updateEvChargers_break _ _ _ _ hbreak,
      evChargerStep_other _ _ _ 4 (by dsimp only [exampleWallbox]; simp)]
    rw [show findById exampleTwoWallboxes.cars (some 4)
        = some (exampleCar 4 true 50 (some 0)) from rfl]
    simp only [Option.map_some']
    rw [drainCar_plugged _ rfl]
    rfl

/-- C19 refuted at a concrete input: for `x = -30` and `m = 24` the expression
`qFloor(x + m) % m + (x - qFloor(x))` is `-6`, which is not in `[0, 24)`. -/
theorem C19_wrap_below_range :
    wrapInto 24 (-30) = -6 ∧ ¬ (0 ≤ wrapInto 24 (-30)) := by
  obtain ⟨-, -, -, wrapInto_neg30, -⟩ := wrap_lemmas
  rw [wrapInto_neg30]
  exact ⟨rfl, by norm_num⟩

/-- C19 as amended: for `m > 0` and every `x ≥ -m` the expression
`qFloor(x + m) % m + (x - qFloor(x))` lies in `[0, m)` and differs from `x` by an
integer multiple of `m`.  The minutes passed to the returned times are between 0
and 59, and the hours are between 0 and 23 when the UTC time plus the offset is
at least -24. -/
theorem C19_wrap_and_time_ranges (m : Int) (x : ℝ) (latitude longitude : ℝ)
    (dateTime : QDateTime) (hm : 0 < m) (hx : -(m : ℝ) ≤ x) :
    (0 ≤ wrapInto m x ∧ wrapInto m x < m ∧ ∃ k : Int, wrapInto m x = x + (k : ℝ) * m) ∧
      (0 ≤ minuteOf (localtRise latitude longitude dateTime) ∧
        minuteOf (localtRise latitude longitude dateTime) ≤ 59 ∧
        0 ≤ minuteOf (localtSet latitude longitude dateTime) ∧
        minuteOf (localtSet latitude longitude dateTime) ≤ 59) ∧
      (-24 ≤ wrapInto 24 (localMeanRise latitude longitude dateTime.dayOfYear - longitude / 15)
          + (offsetHours dateTime : ℝ) →
        0 ≤ hourOf (localtRise latitude longitude dateTime) ∧
        hourOf (localtRise latitude longitude dateTime) ≤ 23) ∧
      (-24 ≤ wrapInto 24 (localMeanSet latitude longitude dateTime.dayOfYear - longitude / 15)
          + (offsetHours dateTime : ℝ) →
        0 ≤ hourOf (localtSet latitude longitude dateTime) ∧
        hourOf (localtSet latitude longitude dateTime) ≤ 23) := by
  obtain ⟨wrapInto_eq_add, -, -, -, minuteOf_range, hourOf_range, toLocalTime_range, -⟩ := wrap_lemmas
  obtain ⟨he, h0, h1⟩ := wrapInto_eq_add m x hm hx
  refine ⟨⟨h0, h1, _, he⟩, ⟨(minuteOf_range _).1, (minuteOf_range _).2, (minuteOf_range _).1,
    (minuteOf_range _).2⟩, ?_, ?_⟩
  · intro h
    have := toLocalTime_range longitude (offsetHours dateTime)
      (localMeanRise latitude longitude dateTime.dayOfYear) h
    exact hourOf_range _ this.1 this.2
  · intro h
    have := toLocalTime_range longitude (offsetHours dateTime)
      (localMeanSet latitude longitude dateTime.dayOfYear) h
    exact hourOf_range _ this.1 this.2

/-- C19 as amended, at a concrete input: `x = -13.75` and `m = 24` give
`10.25`. -/
theorem C19_wrap_and_time_ranges_witness :
    0 ≤ wrapInto 24 (-13.75) ∧ wrapInto 24 (-13.75) < 24 ∧
      ∃ k : Int, wrapInto 24 (-13.75) = -13.75 + (k : ℝ) * 24 := by
  have h := (C19_wrap_and_time_ranges 24 (-13.75) 0 0 (exampleDay 0) (by norm_num)
    (by norm_num)).1
  exact ⟨h.1, by simpa using h.2.1, by simpa using h.2.2⟩

/-- C21: a tick leaves a stove that is switched off exactly as it is (its
`currentPower`, `totalEnergyConsumed` and `simulationCycle` with it), and so does
every sequence of ticks and actions without the power-on action for that stove.
In particular, when a stove that is switched on goes through a tick at an active
position of its cycle (counter modulo 12 below 4) and is switched off after it,
it reports `currentPower = maxPowerConsumption` after every sequence of later
ticks and actions without the power-on action for it, and its
`totalEnergyConsumed` and counter stay what that tick made them. -/
theorem C21_switched_off_stove_unchanged (s : SimState) (i : Nat) (st : Stove)
    (hst : s.stoves[i]? = some st) :
    (st.power = false →
      (∀ env : TickEnv, (updateSimulation env s).stoves[i]? = some st) ∧
      ∀ events : List Event,
        (∀ e ∈ events, e ≠ Event.action (Action.stovePower st.id true)) →
        (run s events).stoves[i]? = some st) ∧
    (st.power = true → Int.tmod st.simulationCycle 12 < 4 →
      (∀ j y, s.stoves[j]? = some y → y.id = st.id → j = i) →
      ∀ (env : TickEnv) (events : List Event),
        (∀ e ∈ events, e ≠ Event.action (Action.stovePower st.id true)) →
        ∃ x, (run s (Event.tick env :: Event.action (Action.stovePower st.id false)
              :: events)).stoves[i]? = some x ∧
          x.power = false ∧
          x.maxPowerConsumption = st.maxPowerConsumption ∧
          x.currentPower = x.maxPowerConsumption ∧
          x.totalEnergyConsumed
            = st.totalEnergyConsumed + (st.maxPowerConsumption / 1000) / 3600 * 5 ∧
          x.simulationCycle = Int.tmod st.simulationCycle 12 + 1) := by
  obtain ⟨-, -, updateSimulation_stoves, -, -, step_action, -⟩ := frame_lemmas
  obtain ⟨-, -, updateStove_maxPowerConsumption, updateStove_on_currentPower,
      updateStove_on_totalEnergyConsumed, updateStove_on_simulationCycle, -, -, -, -, -, -,
      updateStove_id⟩ := stove_lemmas
  obtain ⟨-, -, -, stove_off_step, stove_off_run⟩ := stove_run_lemmas
  constructor
  · intro hoff
    refine ⟨fun env => ?_, fun events he => stove_off_run s events i st hst hoff he⟩
    exact stove_off_step s (Event.tick env) i st hst hoff (fun h => by cases h)
  · intro hon hact hu env events he
    have h1 : (updateSimulation env s).stoves[i]? = some (updateStove st) := by
      rw [updateSimulation_stoves, List.getElem?_map, hst]
      rfl
    have hid : (updateStove st).id = st.id := updateStove_id st
    have h2 : (step (updateSimulation env s)
        (Event.action (Action.stovePower st.id false))).stoves[i]?
          = some { updateStove st with power := false } := by
      simp only [step_action, executeAction]
      refine getElem?_modifyFirst_unique (fun t' : Stove => t'.id == st.id)
        (fun t' => { t' with power := false }) _ i (updateStove st) h1 (by simp [hid]) ?_
      intro j y hy hpy
      rw [updateSimulation_stoves, List.getElem?_map] at hy
      cases hj : s.stoves[j]? with
      | none => rw [hj] at hy; simp at hy
      | some y0 =>
        rw [hj, Option.map_some', Option.some.injEq] at hy
        subst hy
        have hid0 : (updateStove y0).id = y0.id := updateStove_id y0
        exact hu j y0 hj (by rw [← hid0]; simpa using hpy)
    refine ⟨{ updateStove st with power := false }, ?_, rfl, ?_, ?_, ?_, ?_⟩
    · have := stove_off_run _ events i _ h2 rfl (by simpa [hid] using he)
      exact this
    · exact updateStove_maxPowerConsumption st
    · show (updateStove st).currentPower = (updateStove st).maxPowerConsumption
      rw [updateStove_on_currentPower st hon, if_pos hact, updateStove_maxPowerConsumption]
    · show (updateStove st).totalEnergyConsumed = _
      rw [updateStove_on_totalEnergyConsumed st hon, if_pos hact]
    · exact updateStove_on_simulationCycle st hon

/-- C21 at concrete stoves: the switched-off stove of `exampleKitchenOff` keeps
its 2000 W through two ticks, and the stove of `exampleKitchen`, switched off
after its first tick, reports 2000 W two ticks later. -/
theorem C21_switched_off_stove_unchanged_witness :
    (run exampleKitchenOff [Event.tick (exampleEnv 0), Event.tick (exampleEnv 5000)]).stoves[0]?
        = some exampleStoveSwitchedOff ∧
      ∃ x, (run exampleKitchen [Event.tick (exampleEnv 0),
          Event.action (Action.stovePower 7 false), Event.tick (exampleEnv 5000),
          Event.tick (exampleEnv 10000)]).stoves[0]? = some x ∧
        x.power = false ∧ x.currentPower = 2000 := by
  constructor
  · exact ((C21_switched_off_stove_unchanged exampleKitchenOff 0 exampleStoveSwitchedOff rfl).1
      rfl).2 _ (by
        intro e he
        simp only [List.mem_cons, List.mem_singleton, List.not_mem_nil, or_false] at he
        rcases he with h | h <;> rw [h] <;> exact fun h' => by cases h')
  · obtain ⟨x, h1, h2, h3, h4, _⟩ :=
      (C21_switched_off_stove_unchanged exampleKitchen 0 (exampleStove true 0) rfl).2 rfl
        (by decide)
        (by
          intro j y hy _
          cases j with
          | zero => rfl
          | succ k => dsimp only [exampleKitchen] at hy; simp at hy)
        (exampleEnv 0) [Event.tick (exampleEnv 5000), Event.tick (exampleEnv 10000)]
        (by
          intro e he
          simp only [List.mem_cons, List.mem_singleton, List.not_mem_nil, or_false] at he
          rcases he with h | h <;> rw [h] <;> exact fun h' => by cases h')
    refine ⟨x, h1, h2, ?_⟩
    rw [h4, h3]
    rfl

end EnergySimulation
